import Mathlib

/-!
Shallow embedding of the LangGraph service adapter's stateful event
translation engine (src/utils.ts and src/langgraph-adapter.ts): the
per-run stream state, the per-event handlers, the dispatching entry
point with its per-event error containment, and the run-level stream
processor with its guaranteed sink close.  JavaScript string truthiness
(empty string is falsy) is modelled explicitly; `randomUUID` is modelled
by a caller-supplied generator `gen : Nat → String` threaded with a
counter, invoked exactly where the source invokes `randomUUID()`.
-/

namespace LGSA

/-- JS truthiness of an optional string: `undefined` and `""` are falsy. -/
def strTruthy : Option String → Bool
  | some s => s ≠ ""
  | none => false

/-- Value of `a || b` for optional strings (truthy left operand wins). -/
def strOrElse (a : Option String) (b : String) : String :=
  match a with
  | some s => if s ≠ "" then s else b
  | none => b

/-- One element of a structured (array-shaped) LangChain message content.
`text s` models an object passing the source's guard
(`typeof c === "object" && c !== null && "type" in c && c.type === "text"
&& "text" in c`); `other` models every element failing it. -/
inductive ContentPart where
  | text (s : String)
  | other
deriving DecidableEq, Repr

/-- LangChain `MessageContent`: a bare string or an array of parts. -/
inductive MessageContent where
  | str (s : String)
  | parts (l : List ContentPart)
deriving DecidableEq, Repr

/-- Whether a content part passes the text-part guard in the source's
`content.find(...)` predicate. -/
def isTextPart : ContentPart → Bool
  | .text _ => true
  | .other => false

/-- `resolveMessageContent` from src/utils.ts: `!content` is true for
`undefined` and for the empty string; an array resolves to the text of
its first text-typed part, else `null`. -/
def resolveMessageContent (content : Option MessageContent) : Option String :=
  match content with
  | none => none
  | some (.str s) => if s = "" then none else some s
  | some (.parts l) =>
    if l.isEmpty then none
    else
      match l.find? isTextPart with
      | some (.text t) => some t
      | _ => none

/-- JS truthiness of a resolved content value (`if (messageContent)`). -/
def contentTruthy (c : Option String) : Bool :=
  match c with
  | some s => s ≠ ""
  | none => false

/-- The metadata record fields the translator reads
(`copilotkit:emit-messages`, `copilotkit:emit-tool-calls`,
`langgraph_node`); an absent field models an absent key. -/
structure Metadata where
  emitMessages : Option Bool := none
  emitToolCalls : Option Bool := none
  langgraphNode : Option String := none
deriving DecidableEq, Repr

/-- `getShouldEmitMessagesFromMetadata`: event metadata key, else run
metadata key, else `true` (the `??` chain checks only null/undefined). -/
def getShouldEmitMessagesFromMetadata
    (eventMetadata : Option Metadata) (metadata : Option Metadata) : Bool :=
  match eventMetadata.bind (·.emitMessages) with
  | some b => b
  | none =>
    match metadata.bind (·.emitMessages) with
    | some b => b
    | none => true

/-- `getShouldEmitToolCallsFromMetadata`: same cascade for the
tool-call emission flag. -/
def getShouldEmitToolCallsFromMetadata
    (eventMetadata : Option Metadata) (metadata : Option Metadata) : Bool :=
  match eventMetadata.bind (·.emitToolCalls) with
  | some b => b
  | none =>
    match metadata.bind (·.emitToolCalls) with
    | some b => b
    | none => true

/-- An `AIMessageChunk` as read by `handleChatModelStream`: its `id`, its
`content` (absent models `undefined`), and
`response_metadata?.finish_reason`. -/
structure AIMessageChunk where
  id : Option String := none
  content : Option MessageContent := none
  finishReason : Option String := none
deriving DecidableEq, Repr

/-- One entry of `aiMessage.tool_calls` as read by `handleChatModelEnd`.
`argsJson` models `JSON.stringify(toolCall.args || {})`: the
serialization of the args object, `"{}"` when args is absent. -/
structure ToolCall where
  id : Option String := none
  name : Option String := none
  argsJson : String := "{}"
deriving DecidableEq, Repr

/-- The completed `AIMessage` carried by an `on_chat_model_end` event. -/
structure AIMessage where
  id : Option String := none
  content : Option MessageContent := none
  tool_calls : Option (List ToolCall) := none
deriving DecidableEq, Repr

/-- `event.data` of an `on_chat_model_end` event.  The source reads
`event.data.output` without optional chaining, so a missing `data`
object throws; a missing `output` field is represented by `none`. -/
structure ChatEndData where
  output : Option AIMessage := none
deriving DecidableEq, Repr

/-- `event.data?.input` of an `on_tool_start` event, classified as the
source's serialization logic branches on it: a bare string, an object
whose `input` field is a string, any other object (carrying the result
of `JSON.stringify` on it, `none` when stringification throws), or a
non-object non-string value. -/
inductive ToolInput where
  | str (s : String)
  | objWithInput (s : String)
  | obj (serialized : Option String)
  | otherVal
deriving DecidableEq, Repr

/-- `toolMessage.content` of an `on_tool_end` output: a string, or a
non-string (array) value carrying the result of `JSON.stringify` on it,
`none` when stringification throws. -/
inductive ToolContent where
  | str (s : String)
  | arr (serialized : Option String)
deriving DecidableEq, Repr

/-- `event.data?.output` of an `on_tool_end` event (a `ToolMessage`). -/
structure ToolMsg where
  content : Option ToolContent := none
deriving DecidableEq, Repr

/-- The payload distinguishing the upstream event kinds the dispatcher
routes on; every other `event.event` tag is the ignored default arm. -/
inductive LGEventKind where
  | chatModelStream (chunk : Option AIMessageChunk)
  | chatModelEnd (data : Option ChatEndData)
  | toolStart (input : Option ToolInput)
  | toolEnd (output : Option ToolMsg)
  | chainStart
  | custom
  | other
deriving DecidableEq, Repr

/-- An upstream LangGraph `StreamEvent`: kind-specific payload plus the
`run_id`, `name` and `metadata` fields read by the handlers. -/
structure LGEvent where
  kind : LGEventKind
  runId : Option String := none
  name : Option String := none
  meta : Option Metadata := none
deriving DecidableEq, Repr

/-- The downstream runtime event vocabulary emitted through the
`RuntimeEventSubject` sink (src/internal/events). -/
inductive RuntimeEvent where
  | textMessageStart (messageId : String) (parentMessageId : Option String)
  | textMessageContent (messageId : String) (content : String)
  | textMessageEnd (messageId : String)
  | actionExecutionStart (actionExecutionId : String) (actionName : String)
      (parentMessageId : Option String)
  | actionExecutionArgs (actionExecutionId : String) (args : String)
  | actionExecutionEnd (actionExecutionId : String)
  | actionExecutionResult (actionExecutionId : String) (actionName : String)
      (result : String)
  | runError (message : String) (code : String)
deriving DecidableEq, Repr

/-- First-match lookup in an association list, modelling `Map.get`. -/
def lookupAssoc : List (String × String) → String → Option String
  | [], _ => none
  | p :: rest, k => if p.fst = k then some p.snd else lookupAssoc rest k

/-- `Map.set`: replace the binding for `k` if present, else append. -/
def setAssoc (m : List (String × String)) (k v : String) :
    List (String × String) :=
  match m with
  | [] => [(k, v)]
  | p :: rest =>
    if p.fst = k then (k, v) :: rest else p :: setAssoc rest k v

/-- `StreamState` from src/types.ts: run id, the assistant message id of
the streaming text span (if any), the current node name, the tool
`run_id → actionExecutionId` correlation map and the declared frontend
action names. -/
structure StreamState where
  runId : String
  assistantMessageId : Option String := none
  currentNodeName : Option String := none
  toolRunIdToActionId : List (String × String) := []
  frontendActions : List String := []
deriving DecidableEq, Repr

/-- `createStreamState`: caller-supplied run id if truthy, else a fresh
generated one; empty correlation map, no open text span. -/
def createStreamState (runIdParam : Option String)
    (frontendActionsParam : Option (List String))
    (gen : Nat → String) (ctr : Nat) : StreamState × Nat :=
  match runIdParam with
  | some r =>
    if r ≠ "" then
      (⟨r, none, none, [], frontendActionsParam.getD []⟩, ctr)
    else
      (⟨gen ctr, none, none, [], frontendActionsParam.getD []⟩, ctr + 1)
  | none => (⟨gen ctr, none, none, [], frontendActionsParam.getD []⟩, ctr + 1)

/-- Result of one handler invocation: the events pushed to the sink (in
order) before the handler returned or threw, the stream state and
fresh-id counter at that point, and the message of the escaped
exception, when one was raised. -/
structure HRes where
  out : List RuntimeEvent
  st : StreamState
  ctr : Nat
  threw : Option String
deriving Repr

/-- `handleChatModelStream` from src/utils.ts.  Reading
`chunk.response_metadata` throws when `event.data?.chunk` is undefined;
the `messageId` fallback chain consumes a fresh id only when both the
open span id and the chunk id are falsy, and does so before the content
check. -/
def handleChatModelStream (ev : LGEvent) (chunk : Option AIMessageChunk)
    (metadata : Option Metadata) (st : StreamState)
    (gen : Nat → String) (ctr : Nat) : HRes :=
  if ¬ getShouldEmitMessagesFromMetadata ev.meta metadata then
    ⟨[], st, ctr, none⟩
  else
    match chunk with
    | none =>
      ⟨[], st, ctr,
        some "Cannot read properties of undefined (reading response_metadata)"⟩
    | some c =>
      if strTruthy c.finishReason then ⟨[], st, ctr, none⟩
      else
        let mc := resolveMessageContent c.content
        let idCtr : String × Nat :=
          if strTruthy st.assistantMessageId then
            (st.assistantMessageId.getD "", ctr)
          else if strTruthy c.id then (c.id.getD "", ctr)
          else (gen ctr, ctr + 1)
        let messageId := idCtr.fst
        let ctr' := idCtr.snd
        if contentTruthy mc then
          let content := mc.getD ""
          if strTruthy st.assistantMessageId then
            ⟨[.textMessageContent (st.assistantMessageId.getD "") content],
              st, ctr', none⟩
          else
            ⟨[.textMessageStart messageId none,
              .textMessageContent messageId content],
              { st with assistantMessageId := some messageId }, ctr', none⟩
        else ⟨[], st, ctr', none⟩

/-- The `sendTextMessage` helper of the sink: Start, Content, End. -/
def sendTextMessage (messageId content : String) : List RuntimeEvent :=
  [.textMessageStart messageId none,
   .textMessageContent messageId content,
   .textMessageEnd messageId]

/-- The `sendActionExecution` helper of the sink: Start, Args, End. -/
def sendActionExecution (actionExecutionId actionName args : String)
    (parentMessageId : Option String) : List RuntimeEvent :=
  [.actionExecutionStart actionExecutionId actionName parentMessageId,
   .actionExecutionArgs actionExecutionId args]
  ++ [.actionExecutionEnd actionExecutionId]

/-- The completion-time tool-call loop of `handleChatModelEnd`: for each
tool call whose name is truthy and declared frontend-handled, emit a
full action-execution triplet, drawing a fresh id when the call has
none. -/
def emitEndToolCalls (toolCalls : List ToolCall)
    (frontendActions : List String) (gen : Nat → String) (ctr : Nat) :
    List RuntimeEvent × Nat :=
  match toolCalls with
  | [] => ([], ctr)
  | tc :: rest =>
    match tc.name with
    | some nm =>
      if nm ≠ "" ∧ nm ∈ frontendActions then
        let idCtr : String × Nat :=
          if strTruthy tc.id then (tc.id.getD "", ctr) else (gen ctr, ctr + 1)
        let tail := emitEndToolCalls rest frontendActions gen idCtr.snd
        (sendActionExecution idCtr.fst nm tc.argsJson none ++ tail.fst,
          tail.snd)
      else emitEndToolCalls rest frontendActions gen ctr
    | none => emitEndToolCalls rest frontendActions gen ctr

/-- The message section of `handleChatModelEnd`: close the open text
span when one exists, else emit a complete Start→Content→End triplet
for a completion message with truthy resolved content. -/
def chatEndMessagePhase (shouldEmitMessage : Bool) (d : ChatEndData)
    (st : StreamState) (gen : Nat → String) (ctr : Nat) : HRes :=
  if shouldEmitMessage then
    if strTruthy st.assistantMessageId then
      ⟨[.textMessageEnd (st.assistantMessageId.getD "")],
        { st with assistantMessageId := none }, ctr, none⟩
    else
      match d.output with
      | none =>
        ⟨[], st, ctr,
          some "Cannot read properties of undefined (reading id)"⟩
      | some ai =>
        let idCtr : String × Nat :=
          if strTruthy ai.id then (ai.id.getD "", ctr)
          else (gen ctr, ctr + 1)
        let mc := resolveMessageContent ai.content
        if contentTruthy mc then
          ⟨sendTextMessage idCtr.fst (mc.getD ""), st, idCtr.snd, none⟩
        else ⟨[], st, idCtr.snd, none⟩
  else ⟨[], st, ctr, none⟩

/-- `handleChatModelEnd` from src/utils.ts.  `event.data.output` throws
when `data` is undefined; when `data.output` is undefined the later
reads `aiMessage.id` / `aiMessage.tool_calls` throw — in particular the
TextMessageEnd for an open span is emitted (and the span cleared)
before the throw.  An empty `tool_calls` array is a truthy value, so
the forEach runs (emitting nothing). -/
def handleChatModelEnd (ev : LGEvent) (data : Option ChatEndData)
    (metadata : Option Metadata) (st : StreamState)
    (gen : Nat → String) (ctr : Nat) : HRes :=
  let shouldEmitMessage := getShouldEmitMessagesFromMetadata ev.meta metadata
  let shouldEmitToolCalls :=
    getShouldEmitToolCallsFromMetadata ev.meta metadata
  match data with
  | none =>
    ⟨[], st, ctr, some "Cannot read properties of undefined (reading output)"⟩
  | some d =>
    let phase1 := chatEndMessagePhase shouldEmitMessage d st gen ctr
    match phase1.threw with
    | some m => ⟨phase1.out, phase1.st, phase1.ctr, some m⟩
    | none =>
      match d.output with
      | none =>
        ⟨phase1.out, phase1.st, phase1.ctr,
          some "Cannot read properties of undefined (reading tool_calls)"⟩
      | some ai =>
        match ai.tool_calls with
        | some tcs =>
          if shouldEmitToolCalls then
            let emitted :=
              emitEndToolCalls tcs phase1.st.frontendActions gen phase1.ctr
            ⟨phase1.out ++ emitted.fst, phase1.st, emitted.snd, none⟩
          else ⟨phase1.out, phase1.st, phase1.ctr, none⟩
        | none => ⟨phase1.out, phase1.st, phase1.ctr, none⟩

/-- `handleChainStart`: record the node label from event metadata when
present and different from the graph entry sentinel `__start__`. -/
def handleChainStart (ev : LGEvent) (st : StreamState) : StreamState :=
  match ev.meta.bind (·.langgraphNode) with
  | some n =>
    if n ≠ "" ∧ n ≠ "__start__" then { st with currentNodeName := some n }
    else st
  | none => st

/-- The argument-serialization logic of `handleToolStart` (its inner
try/catch): pass a string through, prefer a string `input` field of an
object, else the object's JSON serialization, empty string when
stringification throws or the value is neither string nor object. -/
def extractArgs (input : Option ToolInput) : String :=
  match input with
  | some (.str s) => s
  | some (.objWithInput s) => s
  | some (.obj (some j)) => j
  | some (.obj none) => ""
  | some .otherVal => ""
  | none => ""

/-- The lookup-or-create block duplicated in `handleToolStart` and
`handleToolEnd`: use the correlation-map entry for the tool run id when
one is truthy, else bind the run id to itself (JS truthiness: a falsy
stored value is treated as absent). -/
def resolveActionId (st : StreamState) (runId : String) :
    String × StreamState :=
  match lookupAssoc st.toolRunIdToActionId runId with
  | some a =>
    if a ≠ "" then (a, st)
    else
      (runId,
        { st with
          toolRunIdToActionId :=
            setAssoc st.toolRunIdToActionId runId runId })
  | none =>
    (runId,
      { st with
        toolRunIdToActionId :=
          setAssoc st.toolRunIdToActionId runId runId })

/-- `handleToolStart` from src/utils.ts: resolve the display name
(event name, else current node label, else "tool"), resolve or create
the stable correlation id for the tool run, serialize the input, then
emit ActionExecutionStart (anchored to the open text span as parent,
never closing it) followed by ActionExecutionArgs. -/
def handleToolStart (ev : LGEvent) (input : Option ToolInput)
    (metadata : Option Metadata) (st : StreamState)
    (gen : Nat → String) (ctr : Nat) : HRes :=
  if ¬ getShouldEmitToolCallsFromMetadata ev.meta metadata then
    ⟨[], st, ctr, none⟩
  else
    let toolName := strOrElse ev.name (strOrElse st.currentNodeName "tool")
    let ridCtr : String × Nat :=
      if strTruthy ev.runId then (ev.runId.getD "", ctr)
      else (gen ctr, ctr + 1)
    let aidSt := resolveActionId st ridCtr.fst
    let argsStr := extractArgs input
    ⟨[.actionExecutionStart aidSt.fst toolName st.assistantMessageId,
      .actionExecutionArgs aidSt.fst argsStr],
      aidSt.snd, ridCtr.snd, none⟩

/-- `handleToolEnd` from src/utils.ts: resolve the correlation id (a
fresh one only when no start was seen), emit ActionExecutionEnd, then
ActionExecutionResult whose result string is the output content when it
is a string, else its JSON serialization — a stringification failure
throws after the End was already emitted. -/
def handleToolEnd (ev : LGEvent) (output : Option ToolMsg)
    (metadata : Option Metadata) (st : StreamState)
    (gen : Nat → String) (ctr : Nat) : HRes :=
  if ¬ getShouldEmitToolCallsFromMetadata ev.meta metadata then
    ⟨[], st, ctr, none⟩
  else
    let resultValue : ToolContent :=
      match output.bind (·.content) with
      | some (.str s) => if s = "" then .str "" else .str s
      | some (.arr ser) => .arr ser
      | none => .str ""
    let ridCtr : String × Nat :=
      if strTruthy ev.runId then (ev.runId.getD "", ctr)
      else (gen ctr, ctr + 1)
    let aidSt := resolveActionId st ridCtr.fst
    let actionName := strOrElse ev.name (strOrElse st.currentNodeName "tool")
    match resultValue with
    | .str s =>
      ⟨[.actionExecutionEnd aidSt.fst,
        .actionExecutionResult aidSt.fst actionName s],
        aidSt.snd, ridCtr.snd, none⟩
    | .arr (some j) =>
      ⟨[.actionExecutionEnd aidSt.fst,
        .actionExecutionResult aidSt.fst actionName j],
        aidSt.snd, ridCtr.snd, none⟩
    | .arr none =>
      ⟨[.actionExecutionEnd aidSt.fst],
        aidSt.snd, ridCtr.snd,
        some "Converting circular structure to JSON"⟩

/-- Model of the external `convertServiceAdapterError(error, "LangGraph")`
message: CopilotKit's converter preserves a human-readable message
derived from the underlying failure; only that derivation is relevant
here. -/
def convertServiceAdapterErrorMessage (errMsg : String) : String :=
  errMsg

/-- The run-id backfill at the top of `handleLangGraphEvent`:
`if (!streamState.runId && event.run_id) streamState.runId = event.run_id`. -/
def backfillRunId (ev : LGEvent) (st : StreamState) : StreamState :=
  if st.runId = "" ∧ strTruthy ev.runId then
    { st with runId := ev.runId.getD "" }
  else st

/-- The body of the `try` block of `handleLangGraphEvent`: backfill the
run id from the first event carrying one, then dispatch on the event
kind.  The result records the emissions pushed before the handler
returned or threw. -/
def dispatchEvent (ev : LGEvent) (metadata : Option Metadata)
    (st : StreamState) (gen : Nat → String) (ctr : Nat) : HRes :=
  let st := backfillRunId ev st
  match ev.kind with
  | .chatModelStream chunk =>
    handleChatModelStream ev chunk metadata st gen ctr
  | .chatModelEnd data => handleChatModelEnd ev data metadata st gen ctr
  | .toolStart input => handleToolStart ev input metadata st gen ctr
  | .toolEnd output => handleToolEnd ev output metadata st gen ctr
  | .chainStart => ⟨[], handleChainStart ev st, ctr, none⟩
  | .custom => ⟨[], st, ctr, none⟩
  | .other => ⟨[], st, ctr, none⟩

/-- `handleLangGraphEvent` from src/utils.ts: run the dispatch body and
contain any exception it raises by appending a single RunError (code
`LANGGRAPH_EVENT_ERROR`, message from the converted error) after
whatever the handler had already pushed — never rethrowing. -/
def handleLangGraphEvent (ev : LGEvent) (metadata : Option Metadata)
    (st : StreamState) (gen : Nat → String) (ctr : Nat) :
    List RuntimeEvent × StreamState × Nat :=
  let r := dispatchEvent ev metadata st gen ctr
  match r.threw with
  | none => (r.out, r.st, r.ctr)
  | some m =>
    (r.out
      ++ [.runError (convertServiceAdapterErrorMessage m)
            "LANGGRAPH_EVENT_ERROR"],
      r.st, r.ctr)

/-- The dispatcher loop of `processLangGraphStream`: consume the
upstream events in arrival order, threading the stream state and
concatenating all sink emissions. -/
def processEvents (evs : List LGEvent) (metadata : Option Metadata)
    (st : StreamState) (gen : Nat → String) (ctr : Nat) :
    List RuntimeEvent × StreamState × Nat :=
  match evs with
  | [] => ([], st, ctr)
  | ev :: rest =>
    let r := handleLangGraphEvent ev metadata st gen ctr
    let tail := processEvents rest metadata r.snd.fst gen r.snd.snd
    (r.fst ++ tail.fst, tail.snd)

/-- The upstream event source as observed by the stream processor: it
either delivers its events and is exhausted normally, or delivers them
and then itself throws. -/
inductive Upstream where
  | ok (events : List LGEvent)
  | err (events : List LGEvent)
deriving Repr

/-- The events delivered by an upstream source before it completes or
throws. -/
def Upstream.events : Upstream → List LGEvent
  | .ok evs => evs
  | .err evs => evs

/-- Observable outcome of one `processLangGraphStream` invocation: the
emissions pushed to the sink, how many times the sink's close
(`eventStream$.complete()`) was invoked, and whether an error was
rethrown to the caller. -/
structure StreamRun where
  emissions : List RuntimeEvent
  closes : Nat
  errored : Bool
deriving Repr

/-- `processLangGraphStream` from src/langgraph-adapter.ts: create a
fresh stream state, consume the upstream event stream through the
dispatcher, and — via the `finally` block — invoke the sink's close
exactly once on both the normal-completion and the source-throw exit
route (a source throw is rethrown converted, after the close). -/
def processLangGraphStream (runIdOpt : Option String)
    (metadata : Option Metadata) (up : Upstream) (gen : Nat → String) :
    StreamRun :=
  let stCtr := createStreamState runIdOpt none gen 0
  let body := processEvents up.events metadata stCtr.fst gen stCtr.snd
  match up with
  | .ok _ => ⟨body.fst, 1, false⟩
  | .err _ => ⟨body.fst, 1, true⟩

/-- Whether a downstream event belongs to the text-message family. -/
def isTextEvent : RuntimeEvent → Bool
  | .textMessageStart _ _ => true
  | .textMessageContent _ _ => true
  | .textMessageEnd _ => true
  | _ => false

/-- Whether a downstream event is a RunError. -/
def isRunError : RuntimeEvent → Bool
  | .runError _ _ => true
  | _ => false

/-- The action-execution identifier carried by an action-family event. -/
def eventActionId : RuntimeEvent → Option String
  | .actionExecutionStart aid _ _ => some aid
  | .actionExecutionArgs aid _ => some aid
  | .actionExecutionEnd aid => some aid
  | .actionExecutionResult aid _ _ => some aid
  | _ => none

/-- Mutual-exclusion scanner for the claimed no-overlap invariant: walk
the emitted sequence tracking whether a text span and whether an action
span is open; opening a span of either kind while any span is open is a
violation (`none`). -/
def noOverlapScan (openText openAction : Bool) :
    List RuntimeEvent → Option (Bool × Bool)
  | [] => some (openText, openAction)
  | e :: rest =>
    match e with
    | .textMessageStart _ _ =>
      if openText ∨ openAction then none
      else noOverlapScan true openAction rest
    | .textMessageEnd _ => noOverlapScan false openAction rest
    | .actionExecutionStart _ _ _ =>
      if openText ∨ openAction then none
      else noOverlapScan openText true rest
    | .actionExecutionEnd _ => noOverlapScan openText false rest
    | _ => noOverlapScan openText openAction rest

/-- The claimed invariant: at most one of {open text span, open action
span} at every instant of the emitted sequence. -/
def noOverlap (l : List RuntimeEvent) : Bool :=
  (noOverlapScan false false l).isSome

/-- Text-span discipline scanner: a TextMessageStart may only open when
no text span is open, a TextMessageContent/TextMessageEnd must carry
the open span's id, and TextMessageEnd closes it.  Returns the open
span id after the walk, or `none` on a violation. -/
def textScan (openText : Option String) :
    List RuntimeEvent → Option (Option String)
  | [] => some openText
  | e :: rest =>
    match e with
    | .textMessageStart m _ =>
      match openText with
      | some _ => none
      | none => textScan (some m) rest
    | .textMessageContent m _ =>
      match openText with
      | some o => if o = m then textScan (some o) rest else none
      | none => none
    | .textMessageEnd m =>
      match openText with
      | some o => if o = m then textScan none rest else none
      | none => none
    | _ => textScan openText rest

/-! Helper lemmas about the embedding. -/

theorem processEvents_append (a b : List LGEvent) (md : Option Metadata)
    (st : StreamState) (gen : Nat → String) (ctr : Nat) :
    processEvents (a ++ b) md st gen ctr =
      ((processEvents a md st gen ctr).fst
          ++ (processEvents b md (processEvents a md st gen ctr).snd.fst gen
              (processEvents a md st gen ctr).snd.snd).fst,
        (processEvents b md (processEvents a md st gen ctr).snd.fst gen
          (processEvents a md st gen ctr).snd.snd).snd) := by
  induction a generalizing st ctr with
  | nil => simp [processEvents]
  | cons ev rest ih =>
    simp only [List.cons_append, processEvents, List.append_eq]
    rw [ih]
    simp [List.append_assoc]

theorem textScan_append (a b : List RuntimeEvent) (o : Option String) :
    textScan o (a ++ b) = (textScan o a).bind (fun o' => textScan o' b) := by
  induction a generalizing o with
  | nil => simp [textScan]
  | cons e rest ih =>
    cases e with
    | textMessageStart m p =>
      cases o with
      | none => simpa [textScan] using ih (some m)
      | some x => simp [textScan]
    | textMessageContent m c =>
      cases o with
      | none => simp [textScan]
      | some x =>
        by_cases h : x = m <;> simp [textScan, h, ih]
    | textMessageEnd m =>
      cases o with
      | none => simp [textScan]
      | some x =>
        by_cases h : x = m <;> simp [textScan, h, ih]
    | actionExecutionStart aid n p => simpa [textScan] using ih o
    | actionExecutionArgs aid ar => simpa [textScan] using ih o
    | actionExecutionEnd aid => simpa [textScan] using ih o
    | actionExecutionResult aid n r => simpa [textScan] using ih o
    | runError m c => simpa [textScan] using ih o

theorem lookupAssoc_setAssoc (m : List (String × String)) (k v k' : String) :
    lookupAssoc (setAssoc m k v) k' =
      if k' = k then some v else lookupAssoc m k' := by
  induction m with
  | nil =>
    by_cases h : k' = k
    · subst h; simp [setAssoc, lookupAssoc]
    · have h2 : ¬ k = k' := fun hc => h hc.symm
      simp [setAssoc, lookupAssoc, h, h2]
  | cons p rest ih =>
    by_cases hpk : p.fst = k
    · by_cases h : k' = k
      · subst h; simp [setAssoc, lookupAssoc, hpk]
      · have h2 : ¬ k = k' := fun hc => h hc.symm
        have hpk' : ¬ p.fst = k' := fun hc => h (hc.symm.trans hpk)
        simp [setAssoc, lookupAssoc, hpk, hpk', h, h2]
    · simp only [setAssoc, if_neg hpk]
      by_cases hpk' : p.fst = k'
      · have h : ¬ k' = k := fun hc => hpk (hpk'.trans hc)
        simp [lookupAssoc, hpk', h]
      · simp [lookupAssoc, hpk', ih]

theorem resolveActionId_assistant (st : StreamState) (runId : String) :
    (resolveActionId st runId).snd.assistantMessageId =
      st.assistantMessageId := by
  unfold resolveActionId
  split
  · split <;> rfl
  · rfl

theorem resolveActionId_node (st : StreamState) (runId : String) :
    (resolveActionId st runId).snd.currentNodeName = st.currentNodeName := by
  unfold resolveActionId
  split
  · split <;> rfl
  · rfl

theorem resolveActionId_fst_ne (st : StreamState) (runId : String)
    (h : runId ≠ "") : (resolveActionId st runId).fst ≠ "" := by
  unfold resolveActionId
  split
  · rename_i a heq
    split
    · rename_i ha; simpa using ha
    · simpa using h
  · simpa using h

theorem resolveActionId_lookup (st : StreamState) (runId : String) :
    lookupAssoc (resolveActionId st runId).snd.toolRunIdToActionId runId =
      some (resolveActionId st runId).fst := by
  unfold resolveActionId
  split
  · rename_i a heq
    split
    · simpa using heq
    · simp [lookupAssoc_setAssoc]
  · simp [lookupAssoc_setAssoc]

theorem resolveActionId_monotone (st : StreamState) (runId k v : String)
    (hv : v ≠ "") (h : lookupAssoc st.toolRunIdToActionId k = some v) :
    lookupAssoc (resolveActionId st runId).snd.toolRunIdToActionId k =
      some v := by
  unfold resolveActionId
  split
  · rename_i a heq
    split
    · exact h
    · rename_i ha
      dsimp only
      rw [lookupAssoc_setAssoc]
      split
      · rename_i hk
        subst hk
        rw [h] at heq
        have : v = a := by injection heq
        subst this
        simp at ha
        exact absurd ha hv
      · exact h
  · rename_i heq
    dsimp only
    rw [lookupAssoc_setAssoc]
    split
    · rename_i hk
      subst hk
      rw [h] at heq
      cases heq
    · exact h

theorem resolveActionId_stable (st : StreamState) (r a : String)
    (h : lookupAssoc st.toolRunIdToActionId r = some a) (ha : a ≠ "") :
    resolveActionId st r = (a, st) := by
  unfold resolveActionId
  rw [h]
  simp [ha]

theorem handleChatModelStream_st_fields (ev : LGEvent)
    (chunk : Option AIMessageChunk) (md : Option Metadata)
    (st : StreamState) (gen : Nat → String) (ctr : Nat) :
    (handleChatModelStream ev chunk md st gen ctr).st.toolRunIdToActionId =
        st.toolRunIdToActionId ∧
      (handleChatModelStream ev chunk md st gen ctr).st.currentNodeName =
        st.currentNodeName ∧
      (handleChatModelStream ev chunk md st gen ctr).st.frontendActions =
        st.frontendActions := by
  unfold handleChatModelStream
  refine ⟨?_, ?_, ?_⟩ <;>
    (repeat' first
      | rfl
      | split
      | dsimp only)

theorem chatEndMessagePhase_st_fields (b : Bool) (d : ChatEndData)
    (st : StreamState) (gen : Nat → String) (ctr : Nat) :
    (chatEndMessagePhase b d st gen ctr).st.toolRunIdToActionId =
        st.toolRunIdToActionId ∧
      (chatEndMessagePhase b d st gen ctr).st.currentNodeName =
        st.currentNodeName ∧
      (chatEndMessagePhase b d st gen ctr).st.frontendActions =
        st.frontendActions := by
  unfold chatEndMessagePhase
  refine ⟨?_, ?_, ?_⟩ <;>
    (repeat' first
      | rfl
      | split
      | dsimp only)

theorem handleChatModelEnd_st (ev : LGEvent) (data : Option ChatEndData)
    (md : Option Metadata) (st : StreamState) (gen : Nat → String)
    (ctr : Nat) :
    (handleChatModelEnd ev data md st gen ctr).st = st ∨
      (handleChatModelEnd ev data md st gen ctr).st =
        (chatEndMessagePhase (getShouldEmitMessagesFromMetadata ev.meta md)
          ((data.getD ⟨none⟩)) st gen ctr).st := by
  unfold handleChatModelEnd
  cases data with
  | none => exact Or.inl rfl
  | some d =>
    dsimp only
    repeat' first
      | exact Or.inr rfl
      | split
      | dsimp only

theorem handleChainStart_fields (ev : LGEvent) (st : StreamState) :
    (handleChainStart ev st).toolRunIdToActionId = st.toolRunIdToActionId ∧
      (handleChainStart ev st).assistantMessageId = st.assistantMessageId ∧
      (handleChainStart ev st).frontendActions = st.frontendActions := by
  unfold handleChainStart
  refine ⟨?_, ?_, ?_⟩ <;>
    (repeat' first
      | rfl
      | split
      | dsimp only)

theorem handleToolStart_st (ev : LGEvent) (input : Option ToolInput)
    (md : Option Metadata) (st : StreamState) (gen : Nat → String)
    (ctr : Nat) :
    (handleToolStart ev input md st gen ctr).st = st ∨
      ∃ rid, (handleToolStart ev input md st gen ctr).st =
        (resolveActionId st rid).snd := by
  unfold handleToolStart
  split
  · exact Or.inl rfl
  · dsimp only
    exact Or.inr ⟨_, rfl⟩

theorem handleToolEnd_st (ev : LGEvent) (output : Option ToolMsg)
    (md : Option Metadata) (st : StreamState) (gen : Nat → String)
    (ctr : Nat) :
    (handleToolEnd ev output md st gen ctr).st = st ∨
      ∃ rid, (handleToolEnd ev output md st gen ctr).st =
        (resolveActionId st rid).snd := by
  unfold handleToolEnd
  repeat' first
    | exact Or.inl rfl
    | exact Or.inr ⟨_, rfl⟩
    | split
    | dsimp only

theorem backfillRunId_fields (ev : LGEvent) (st : StreamState) :
    (backfillRunId ev st).toolRunIdToActionId = st.toolRunIdToActionId ∧
      (backfillRunId ev st).assistantMessageId = st.assistantMessageId ∧
      (backfillRunId ev st).currentNodeName = st.currentNodeName ∧
      (backfillRunId ev st).frontendActions = st.frontendActions := by
  unfold backfillRunId
  split <;> exact ⟨rfl, rfl, rfl, rfl⟩

theorem handleLangGraphEvent_st (ev : LGEvent) (md : Option Metadata)
    (st : StreamState) (gen : Nat → String) (ctr : Nat) :
    (handleLangGraphEvent ev md st gen ctr).snd.fst =
      (dispatchEvent ev md st gen ctr).st := by
  unfold handleLangGraphEvent
  dsimp only
  split <;> rfl

theorem dispatchEvent_map_monotone (ev : LGEvent) (md : Option Metadata)
    (st : StreamState) (gen : Nat → String) (ctr : Nat) (k v : String)
    (hv : v ≠ "") (h : lookupAssoc st.toolRunIdToActionId k = some v) :
    lookupAssoc (dispatchEvent ev md st gen ctr).st.toolRunIdToActionId k =
      some v := by
  have hbm : (backfillRunId ev st).toolRunIdToActionId =
      st.toolRunIdToActionId := (backfillRunId_fields ev st).1
  obtain ⟨kind, erid, enm, emeta⟩ := ev
  unfold dispatchEvent
  cases kind with
  | chatModelStream chunk =>
    dsimp only
    rw [(handleChatModelStream_st_fields _ chunk md _ gen ctr).1, hbm]
    exact h
  | chatModelEnd data =>
    dsimp only
    rcases handleChatModelEnd_st ⟨.chatModelEnd data, erid, enm, emeta⟩ data
        md (backfillRunId ⟨.chatModelEnd data, erid, enm, emeta⟩ st) gen ctr
      with he | he
    · rw [he, hbm]; exact h
    · rw [he, (chatEndMessagePhase_st_fields _ _ _ _ _).1, hbm]; exact h
  | toolStart input =>
    dsimp only
    rcases handleToolStart_st ⟨.toolStart input, erid, enm, emeta⟩ input md
        (backfillRunId ⟨.toolStart input, erid, enm, emeta⟩ st) gen ctr
      with he | ⟨rid, he⟩
    · rw [he, hbm]; exact h
    · rw [he]
      exact resolveActionId_monotone _ _ _ _ hv (by rw [hbm]; exact h)
  | toolEnd output =>
    dsimp only
    rcases handleToolEnd_st ⟨.toolEnd output, erid, enm, emeta⟩ output md
        (backfillRunId ⟨.toolEnd output, erid, enm, emeta⟩ st) gen ctr
      with he | ⟨rid, he⟩
    · rw [he, hbm]; exact h
    · rw [he]
      exact resolveActionId_monotone _ _ _ _ hv (by rw [hbm]; exact h)
  | chainStart =>
    dsimp only
    rw [(handleChainStart_fields _ _).1, hbm]
    exact h
  | custom =>
    dsimp only
    rw [hbm]
    exact h
  | other =>
    dsimp only
    rw [hbm]
    exact h

theorem processEvents_map_monotone (evs : List LGEvent)
    (md : Option Metadata) (st : StreamState) (gen : Nat → String)
    (ctr : Nat) (k v : String) (hv : v ≠ "")
    (h : lookupAssoc st.toolRunIdToActionId k = some v) :
    lookupAssoc
        (processEvents evs md st gen ctr).snd.fst.toolRunIdToActionId k =
      some v := by
  induction evs generalizing st ctr with
  | nil => exact h
  | cons ev rest ih =>
    simp only [processEvents]
    exact ih _ _
      (by rw [handleLangGraphEvent_st]
          exact dispatchEvent_map_monotone ev md st gen ctr k v hv h)

theorem textScan_nonText (l : List RuntimeEvent) (o : Option String)
    (h : ∀ e ∈ l, isTextEvent e = false) : textScan o l = some o := by
  induction l generalizing o with
  | nil => rfl
  | cons e rest ih =>
    have he := h e (List.mem_cons_self e rest)
    have hrest : ∀ e' ∈ rest, isTextEvent e' = false := fun e' h' =>
      h e' (List.mem_cons_of_mem e h')
    cases e with
    | textMessageStart m p => simp [isTextEvent] at he
    | textMessageContent m c => simp [isTextEvent] at he
    | textMessageEnd m => simp [isTextEvent] at he
    | actionExecutionStart a n p => exact ih o hrest
    | actionExecutionArgs a ar => exact ih o hrest
    | actionExecutionEnd a => exact ih o hrest
    | actionExecutionResult a n r => exact ih o hrest
    | runError m c => exact ih o hrest

theorem emitEndToolCalls_class (tcs : List ToolCall)
    (fa : List String) (gen : Nat → String) (ctr : Nat) :
    ∀ e ∈ (emitEndToolCalls tcs fa gen ctr).fst,
      isTextEvent e = false ∧ isRunError e = false := by
  induction tcs generalizing ctr with
  | nil => intro e he; simp [emitEndToolCalls] at he
  | cons tc rest ih =>
    intro e he
    unfold emitEndToolCalls at he
    rcases htc : tc.name with _ | nm
    · rw [htc] at he
      exact ih _ e he
    · rw [htc] at he
      dsimp only at he
      split at he
      · rw [List.mem_append] at he
        rcases he with he | he
        · simp only [sendActionExecution, List.mem_append, List.mem_cons,
            List.mem_singleton, List.not_mem_nil, or_false] at he
          first
          | (rcases he with (rfl | rfl) | rfl <;> exact ⟨rfl, rfl⟩)
          | (rcases he with rfl | rfl | rfl <;> exact ⟨rfl, rfl⟩)
        · exact ih _ e he
      · exact ih _ e he

theorem handleToolStart_class (ev : LGEvent) (input : Option ToolInput)
    (md : Option Metadata) (st : StreamState) (gen : Nat → String)
    (ctr : Nat) :
    ∀ e ∈ (handleToolStart ev input md st gen ctr).out,
      isTextEvent e = false ∧ isRunError e = false := by
  unfold handleToolStart
  split
  · intro e he; simp at he
  · dsimp only
    intro e he
    simp only [List.mem_cons, List.mem_singleton, List.not_mem_nil,
      or_false] at he
    rcases he with he | he <;> subst he <;> exact ⟨rfl, rfl⟩

theorem handleToolEnd_class (ev : LGEvent) (output : Option ToolMsg)
    (md : Option Metadata) (st : StreamState) (gen : Nat → String)
    (ctr : Nat) :
    ∀ e ∈ (handleToolEnd ev output md st gen ctr).out,
      isTextEvent e = false ∧ isRunError e = false := by
  unfold handleToolEnd
  repeat' first
    | split
    | dsimp only
  all_goals intro e he
  all_goals
    simp only [List.mem_cons, List.mem_singleton, List.not_mem_nil,
      or_false] at he
  all_goals first
    | (rcases he with rfl | rfl <;> exact ⟨rfl, rfl⟩)
    | (subst he; exact ⟨rfl, rfl⟩)

theorem handleChatModelStream_no_runError (ev : LGEvent)
    (chunk : Option AIMessageChunk) (md : Option Metadata)
    (st : StreamState) (gen : Nat → String) (ctr : Nat) :
    ∀ e ∈ (handleChatModelStream ev chunk md st gen ctr).out,
      isRunError e = false := by
  unfold handleChatModelStream
  repeat' first
    | split
    | dsimp only
  all_goals intro e he
  all_goals
    simp only [List.mem_cons, List.mem_singleton, List.not_mem_nil,
      or_false] at he
  all_goals first
    | (rcases he with rfl | rfl <;> rfl)
    | (subst he; rfl)

theorem chatEndMessagePhase_no_runError (b : Bool) (d : ChatEndData)
    (st : StreamState) (gen : Nat → String) (ctr : Nat) :
    ∀ e ∈ (chatEndMessagePhase b d st gen ctr).out,
      isRunError e = false := by
  unfold chatEndMessagePhase
  repeat' first
    | split
    | dsimp only
  all_goals intro e he
  all_goals
    simp only [sendTextMessage, List.mem_cons, List.mem_singleton,
      List.not_mem_nil, or_false] at he
  all_goals first
    | (rcases he with rfl | rfl | rfl <;> rfl)
    | (rcases he with rfl | rfl <;> rfl)
    | (subst he; rfl)

theorem handleChatModelEnd_no_runError (ev : LGEvent)
    (data : Option ChatEndData) (md : Option Metadata) (st : StreamState)
    (gen : Nat → String) (ctr : Nat) :
    ∀ e ∈ (handleChatModelEnd ev data md st gen ctr).out,
      isRunError e = false := by
  unfold handleChatModelEnd
  cases data with
  | none => intro e he; simp at he
  | some d =>
    dsimp only
    repeat' first
      | split
      | dsimp only
    all_goals intro e he
    all_goals (try rw [List.mem_append] at he)
    all_goals first
      | exact chatEndMessagePhase_no_runError _ _ _ _ _ e he
      | (rcases he with he | he
         · exact chatEndMessagePhase_no_runError _ _ _ _ _ e he
         · exact (emitEndToolCalls_class _ _ _ _ e he).2)

theorem dispatchEvent_no_runError (ev : LGEvent) (md : Option Metadata)
    (st : StreamState) (gen : Nat → String) (ctr : Nat) :
    ∀ e ∈ (dispatchEvent ev md st gen ctr).out, isRunError e = false := by
  obtain ⟨kind, erid, enm, emeta⟩ := ev
  unfold dispatchEvent
  cases kind with
  | chatModelStream chunk =>
    exact handleChatModelStream_no_runError _ chunk md _ gen ctr
  | chatModelEnd data =>
    exact handleChatModelEnd_no_runError _ data md _ gen ctr
  | toolStart input =>
    exact fun e he => (handleToolStart_class _ input md _ gen ctr e he).2
  | toolEnd output =>
    exact fun e he => (handleToolEnd_class _ output md _ gen ctr e he).2
  | chainStart => intro e he; simp at he
  | custom => intro e he; simp at he
  | other => intro e he; simp at he

/-! Branch characterizations of the handlers. -/

theorem handleChatModelStream_skip_emit (ev : LGEvent)
    (chunk : Option AIMessageChunk) (md : Option Metadata)
    (st : StreamState) (gen : Nat → String) (ctr : Nat)
    (h : getShouldEmitMessagesFromMetadata ev.meta md = false) :
    handleChatModelStream ev chunk md st gen ctr = ⟨[], st, ctr, none⟩ := by
  unfold handleChatModelStream
  simp [h]

theorem handleChatModelStream_skip_finish (ev : LGEvent)
    (c : AIMessageChunk) (md : Option Metadata) (st : StreamState)
    (gen : Nat → String) (ctr : Nat)
    (hfin : strTruthy c.finishReason = true) :
    handleChatModelStream ev (some c) md st gen ctr = ⟨[], st, ctr, none⟩ := by
  unfold handleChatModelStream
  split
  · rfl
  · simp [hfin]

theorem handleChatModelStream_content_open (ev : LGEvent)
    (c : AIMessageChunk) (md : Option Metadata) (st : StreamState)
    (gen : Nat → String) (ctr : Nat) (m : String)
    (hemit : getShouldEmitMessagesFromMetadata ev.meta md = true)
    (hfin : strTruthy c.finishReason = false)
    (hA : st.assistantMessageId = some m) (hm : m ≠ "")
    (hc : contentTruthy (resolveMessageContent c.content) = true) :
    handleChatModelStream ev (some c) md st gen ctr =
      ⟨[.textMessageContent m ((resolveMessageContent c.content).getD "")],
        st, ctr, none⟩ := by
  unfold handleChatModelStream
  simp only [hemit, hfin, hA]
  simp [strTruthy, hm, hc]

theorem handleChatModelStream_content_fresh (ev : LGEvent)
    (c : AIMessageChunk) (md : Option Metadata) (st : StreamState)
    (gen : Nat → String) (ctr : Nat)
    (hemit : getShouldEmitMessagesFromMetadata ev.meta md = true)
    (hfin : strTruthy c.finishReason = false)
    (hA : strTruthy st.assistantMessageId = false)
    (hc : contentTruthy (resolveMessageContent c.content) = true) :
    handleChatModelStream ev (some c) md st gen ctr =
      (if strTruthy c.id then
        ⟨[.textMessageStart (c.id.getD "") none,
          .textMessageContent (c.id.getD "")
            ((resolveMessageContent c.content).getD "")],
          { st with assistantMessageId := some (c.id.getD "") }, ctr, none⟩
      else
        ⟨[.textMessageStart (gen ctr) none,
          .textMessageContent (gen ctr)
            ((resolveMessageContent c.content).getD "")],
          { st with assistantMessageId := some (gen ctr) }, ctr + 1,
          none⟩) := by
  unfold handleChatModelStream
  by_cases hid : strTruthy c.id = true <;>
    simp [hemit, hfin, hA, hc, hid]

theorem handleChatModelStream_no_content (ev : LGEvent)
    (c : AIMessageChunk) (md : Option Metadata) (st : StreamState)
    (gen : Nat → String) (ctr : Nat)
    (hc : contentTruthy (resolveMessageContent c.content) = false) :
    ∃ ctr', handleChatModelStream ev (some c) md st gen ctr =
      ⟨[], st, ctr', none⟩ := by
  unfold handleChatModelStream
  by_cases hemit : getShouldEmitMessagesFromMetadata ev.meta md = true
  · by_cases hfin : strTruthy c.finishReason = true
    · exact ⟨ctr, by simp [hemit, hfin]⟩
    · by_cases h1 : strTruthy st.assistantMessageId = true
      · exact ⟨ctr, by simp [hemit, hfin, h1, hc]⟩
      · by_cases h2 : strTruthy c.id = true
        · exact ⟨ctr, by simp [hemit, hfin, h1, h2, hc]⟩
        · exact ⟨ctr + 1, by simp [hemit, hfin, h1, h2, hc]⟩
  · exact ⟨ctr, by simp [hemit]⟩

theorem chatEndMessagePhase_off (d : ChatEndData) (st : StreamState)
    (gen : Nat → String) (ctr : Nat) :
    chatEndMessagePhase false d st gen ctr = ⟨[], st, ctr, none⟩ := rfl

theorem chatEndMessagePhase_close (d : ChatEndData) (st : StreamState)
    (gen : Nat → String) (ctr : Nat) (m : String)
    (hA : st.assistantMessageId = some m) (hm : m ≠ "") :
    chatEndMessagePhase true d st gen ctr =
      ⟨[.textMessageEnd m], { st with assistantMessageId := none }, ctr,
        none⟩ := by
  unfold chatEndMessagePhase
  simp [hA, hm, strTruthy]

theorem chatEndMessagePhase_closed_cases (d : ChatEndData)
    (st : StreamState) (gen : Nat → String) (ctr : Nat)
    (hg : ∀ n, gen n ≠ "")
    (hA : strTruthy st.assistantMessageId = false) :
    (∃ thr, chatEndMessagePhase true d st gen ctr = ⟨[], st, ctr, thr⟩) ∨
      (∃ x cs ctr', x ≠ "" ∧ chatEndMessagePhase true d st gen ctr =
        ⟨sendTextMessage x cs, st, ctr', none⟩) ∨
      (∃ ctr', chatEndMessagePhase true d st gen ctr =
        ⟨[], st, ctr', none⟩) := by
  unfold chatEndMessagePhase
  simp only [hA, if_true, if_false]
  cases d.output with
  | none =>
    exact Or.inl ⟨some "Cannot read properties of undefined (reading id)",
      by simp⟩
  | some ai =>
    by_cases hc : contentTruthy (resolveMessageContent ai.content) = true
    · by_cases hid : strTruthy ai.id = true
      · have hne : ai.id.getD "" ≠ "" := by
          cases hai : ai.id with
          | none => rw [hai] at hid; simp [strTruthy] at hid
          | some s => rw [hai] at hid; simpa [strTruthy] using hid
        refine Or.inr (Or.inl ⟨ai.id.getD "",
          (resolveMessageContent ai.content).getD "", ctr, hne, ?_⟩)
        simp [hc, hid]
      · refine Or.inr (Or.inl ⟨gen ctr,
          (resolveMessageContent ai.content).getD "", ctr + 1, hg ctr, ?_⟩)
        simp [hc, hid]
    · by_cases hid : strTruthy ai.id = true
      · refine Or.inr (Or.inr ⟨ctr, ?_⟩)
        simp [hc, hid]
      · refine Or.inr (Or.inr ⟨ctr + 1, ?_⟩)
        simp [hc, hid]

theorem handleToolStart_skip (ev : LGEvent) (input : Option ToolInput)
    (md : Option Metadata) (st : StreamState) (gen : Nat → String)
    (ctr : Nat)
    (h : getShouldEmitToolCallsFromMetadata ev.meta md = false) :
    handleToolStart ev input md st gen ctr = ⟨[], st, ctr, none⟩ := by
  unfold handleToolStart
  simp [h]

theorem handleToolStart_emit (ev : LGEvent) (input : Option ToolInput)
    (md : Option Metadata) (st : StreamState) (gen : Nat → String)
    (ctr : Nat) (r : String)
    (h : getShouldEmitToolCallsFromMetadata ev.meta md = true)
    (hr : ev.runId = some r) (hrne : r ≠ "") :
    handleToolStart ev input md st gen ctr =
      ⟨[.actionExecutionStart (resolveActionId st r).fst
          (strOrElse ev.name (strOrElse st.currentNodeName "tool"))
          st.assistantMessageId,
        .actionExecutionArgs (resolveActionId st r).fst (extractArgs input)],
        (resolveActionId st r).snd, ctr, none⟩ := by
  unfold handleToolStart
  simp [h, hr, strTruthy, hrne]

theorem handleToolEnd_skip (ev : LGEvent) (output : Option ToolMsg)
    (md : Option Metadata) (st : StreamState) (gen : Nat → String)
    (ctr : Nat)
    (h : getShouldEmitToolCallsFromMetadata ev.meta md = false) :
    handleToolEnd ev output md st gen ctr = ⟨[], st, ctr, none⟩ := by
  unfold handleToolEnd
  simp [h]

theorem handleToolEnd_emit_str (ev : LGEvent) (output : Option ToolMsg)
    (md : Option Metadata) (st : StreamState) (gen : Nat → String)
    (ctr : Nat) (r s : String)
    (h : getShouldEmitToolCallsFromMetadata ev.meta md = true)
    (hr : ev.runId = some r) (hrne : r ≠ "")
    (hoc : output.bind (fun x => x.content) = some (.str s)) :
    handleToolEnd ev output md st gen ctr =
      ⟨[.actionExecutionEnd (resolveActionId st r).fst,
        .actionExecutionResult (resolveActionId st r).fst
          (strOrElse ev.name (strOrElse st.currentNodeName "tool")) s],
        (resolveActionId st r).snd, ctr, none⟩ := by
  unfold handleToolEnd
  by_cases hs : s = ""
  · subst hs
    simp [h, hr, strTruthy, hrne, hoc]
  · simp [h, hr, strTruthy, hrne, hoc, hs]

theorem handleToolEnd_emit_none (ev : LGEvent) (output : Option ToolMsg)
    (md : Option Metadata) (st : StreamState) (gen : Nat → String)
    (ctr : Nat) (r : String)
    (h : getShouldEmitToolCallsFromMetadata ev.meta md = true)
    (hr : ev.runId = some r) (hrne : r ≠ "")
    (hoc : output.bind (fun x => x.content) = none) :
    handleToolEnd ev output md st gen ctr =
      ⟨[.actionExecutionEnd (resolveActionId st r).fst,
        .actionExecutionResult (resolveActionId st r).fst
          (strOrElse ev.name (strOrElse st.currentNodeName "tool")) ""],
        (resolveActionId st r).snd, ctr, none⟩ := by
  unfold handleToolEnd
  simp [h, hr, strTruthy, hrne, hoc]

theorem handleToolEnd_emit_json (ev : LGEvent) (output : Option ToolMsg)
    (md : Option Metadata) (st : StreamState) (gen : Nat → String)
    (ctr : Nat) (r j : String)
    (h : getShouldEmitToolCallsFromMetadata ev.meta md = true)
    (hr : ev.runId = some r) (hrne : r ≠ "")
    (hoc : output.bind (fun x => x.content) = some (.arr (some j))) :
    handleToolEnd ev output md st gen ctr =
      ⟨[.actionExecutionEnd (resolveActionId st r).fst,
        .actionExecutionResult (resolveActionId st r).fst
          (strOrElse ev.name (strOrElse st.currentNodeName "tool")) j],
        (resolveActionId st r).snd, ctr, none⟩ := by
  unfold handleToolEnd
  simp [h, hr, strTruthy, hrne, hoc]

theorem handleToolEnd_throw (ev : LGEvent) (output : Option ToolMsg)
    (md : Option Metadata) (st : StreamState) (gen : Nat → String)
    (ctr : Nat) (r : String)
    (h : getShouldEmitToolCallsFromMetadata ev.meta md = true)
    (hr : ev.runId = some r) (hrne : r ≠ "")
    (hoc : output.bind (fun x => x.content) = some (.arr none)) :
    handleToolEnd ev output md st gen ctr =
      ⟨[.actionExecutionEnd (resolveActionId st r).fst],
        (resolveActionId st r).snd, ctr,
        some "Converting circular structure to JSON"⟩ := by
  unfold handleToolEnd
  simp [h, hr, strTruthy, hrne, hoc]

theorem handleChatModelEnd_throw_data (ev : LGEvent) (md : Option Metadata)
    (st : StreamState) (gen : Nat → String) (ctr : Nat) :
    handleChatModelEnd ev none md st gen ctr =
      ⟨[], st, ctr,
        some "Cannot read properties of undefined (reading output)"⟩ := rfl

theorem handleChatModelEnd_decomp (ev : LGEvent) (d : ChatEndData)
    (md : Option Metadata) (st : StreamState) (gen : Nat → String)
    (ctr : Nat) :
    ∃ tail, (handleChatModelEnd ev (some d) md st gen ctr).out =
        (chatEndMessagePhase (getShouldEmitMessagesFromMetadata ev.meta md)
          d st gen ctr).out ++ tail ∧
      (∀ e ∈ tail, isTextEvent e = false ∧ isRunError e = false) ∧
      (handleChatModelEnd ev (some d) md st gen ctr).st =
        (chatEndMessagePhase (getShouldEmitMessagesFromMetadata ev.meta md)
          d st gen ctr).st := by
  unfold handleChatModelEnd
  dsimp only
  repeat' first | split | dsimp only
  all_goals first
    | exact ⟨_, rfl, emitEndToolCalls_class _ _ _ _, rfl⟩
    | exact ⟨[], (List.append_nil _).symm,
        fun e he => absurd he (List.not_mem_nil e), rfl⟩

theorem dispatchEvent_chatModelStream (chunk : Option AIMessageChunk)
    (erid enm : Option String) (emeta : Option Metadata)
    (md : Option Metadata) (st : StreamState) (gen : Nat → String)
    (ctr : Nat) :
    dispatchEvent ⟨.chatModelStream chunk, erid, enm, emeta⟩ md st gen ctr =
      handleChatModelStream ⟨.chatModelStream chunk, erid, enm, emeta⟩ chunk
        md (backfillRunId ⟨.chatModelStream chunk, erid, enm, emeta⟩ st)
        gen ctr := rfl

theorem dispatchEvent_chatModelEnd (data : Option ChatEndData)
    (erid enm : Option String) (emeta : Option Metadata)
    (md : Option Metadata) (st : StreamState) (gen : Nat → String)
    (ctr : Nat) :
    dispatchEvent ⟨.chatModelEnd data, erid, enm, emeta⟩ md st gen ctr =
      handleChatModelEnd ⟨.chatModelEnd data, erid, enm, emeta⟩ data md
        (backfillRunId ⟨.chatModelEnd data, erid, enm, emeta⟩ st) gen ctr :=
  rfl

theorem dispatchEvent_toolStart (input : Option ToolInput)
    (erid enm : Option String) (emeta : Option Metadata)
    (md : Option Metadata) (st : StreamState) (gen : Nat → String)
    (ctr : Nat) :
    dispatchEvent ⟨.toolStart input, erid, enm, emeta⟩ md st gen ctr =
      handleToolStart ⟨.toolStart input, erid, enm, emeta⟩ input md
        (backfillRunId ⟨.toolStart input, erid, enm, emeta⟩ st) gen ctr :=
  rfl

theorem dispatchEvent_toolEnd (output : Option ToolMsg)
    (erid enm : Option String) (emeta : Option Metadata)
    (md : Option Metadata) (st : StreamState) (gen : Nat → String)
    (ctr : Nat) :
    dispatchEvent ⟨.toolEnd output, erid, enm, emeta⟩ md st gen ctr =
      handleToolEnd ⟨.toolEnd output, erid, enm, emeta⟩ output md
        (backfillRunId ⟨.toolEnd output, erid, enm, emeta⟩ st) gen ctr :=
  rfl

theorem dispatchEvent_chainStart (erid enm : Option String)
    (emeta : Option Metadata) (md : Option Metadata) (st : StreamState)
    (gen : Nat → String) (ctr : Nat) :
    dispatchEvent ⟨.chainStart, erid, enm, emeta⟩ md st gen ctr =
      ⟨[], handleChainStart ⟨.chainStart, erid, enm, emeta⟩
        (backfillRunId ⟨.chainStart, erid, enm, emeta⟩ st), ctr, none⟩ := rfl

theorem handleLangGraphEvent_out (ev : LGEvent) (md : Option Metadata)
    (st : StreamState) (gen : Nat → String) (ctr : Nat) :
    (handleLangGraphEvent ev md st gen ctr).fst =
      (dispatchEvent ev md st gen ctr).out ++
        (match (dispatchEvent ev md st gen ctr).threw with
          | none => []
          | some m =>
            [.runError (convertServiceAdapterErrorMessage m)
              "LANGGRAPH_EVENT_ERROR"]) := by
  unfold handleLangGraphEvent
  dsimp only
  split <;> simp [*]

theorem handleLangGraphEvent_ctr (ev : LGEvent) (md : Option Metadata)
    (st : StreamState) (gen : Nat → String) (ctr : Nat) :
    (handleLangGraphEvent ev md st gen ctr).snd.snd =
      (dispatchEvent ev md st gen ctr).ctr := by
  unfold handleLangGraphEvent
  dsimp only
  split <;> rfl

theorem handleChatModelStream_throw_chunk (ev : LGEvent)
    (md : Option Metadata) (st : StreamState) (gen : Nat → String)
    (ctr : Nat)
    (hemit : getShouldEmitMessagesFromMetadata ev.meta md = true) :
    handleChatModelStream ev none md st gen ctr =
      ⟨[], st, ctr,
        some "Cannot read properties of undefined (reading response_metadata)"⟩ := by
  unfold handleChatModelStream
  simp [hemit]

/-- Invariant tying the run state's open-text marker to the text-span
scanner state: the scanner's open span is exactly the state's
`assistantMessageId`, and an open span id is never the empty string. -/
def TextInv (st : StreamState) (o : Option String) : Prop :=
  st.assistantMessageId = o ∧ ∀ m, o = some m → m ≠ ""

theorem handleChatModelStream_textScan (ev : LGEvent)
    (chunk : Option AIMessageChunk) (md : Option Metadata)
    (st : StreamState) (gen : Nat → String) (ctr : Nat) (o : Option String)
    (hg : ∀ n, gen n ≠ "") (hinv : TextInv st o) :
    ∃ o', textScan o (handleChatModelStream ev chunk md st gen ctr).out =
        some o' ∧
      TextInv (handleChatModelStream ev chunk md st gen ctr).st o' := by
  obtain ⟨hA, hNe⟩ := hinv
  by_cases hemit : getShouldEmitMessagesFromMetadata ev.meta md = true
  · cases chunk with
    | none =>
      rw [handleChatModelStream_throw_chunk ev md st gen ctr hemit]
      exact ⟨o, rfl, hA, hNe⟩
    | some c =>
      by_cases hfin : strTruthy c.finishReason = true
      · rw [handleChatModelStream_skip_finish ev c md st gen ctr hfin]
        exact ⟨o, rfl, hA, hNe⟩
      · have hfin' : strTruthy c.finishReason = false := by
          simpa using hfin
        by_cases hc : contentTruthy (resolveMessageContent c.content) = true
        · cases ho : st.assistantMessageId with
          | some m =>
            have hom : o = some m := by rw [← hA, ho]
            subst hom
            have hm : m ≠ "" := hNe m rfl
            rw [handleChatModelStream_content_open ev c md st gen ctr m
              hemit hfin' ho hm hc]
            exact ⟨some m, by simp [textScan], ho, hNe⟩
          | none =>
            have hom : o = none := by rw [← hA, ho]
            subst hom
            have hA' : strTruthy st.assistantMessageId = false := by
              rw [ho]; rfl
            rw [handleChatModelStream_content_fresh ev c md st gen ctr
              hemit hfin' hA' hc]
            by_cases hid : strTruthy c.id = true
            · have hne : c.id.getD "" ≠ "" := by
                cases hai : c.id with
                | none => rw [hai] at hid; simp [strTruthy] at hid
                | some s => rw [hai] at hid; simpa [strTruthy] using hid
              refine ⟨some (c.id.getD ""), ?_, ?_⟩
              · simp [hid, textScan]
              · simp only [hid, if_true]
                exact ⟨rfl, fun m' h => by
                  injection h with hh; subst hh; exact hne⟩
            · refine ⟨some (gen ctr), ?_, ?_⟩
              · simp [hid, textScan]
              · simp only [hid, if_false]
                exact ⟨rfl, fun m' h => by
                  injection h with hh; subst hh; exact hg ctr⟩
        · have hc' : contentTruthy (resolveMessageContent c.content) =
              false := by simpa using hc
          obtain ⟨ctr', heq⟩ :=
            handleChatModelStream_no_content ev c md st gen ctr hc'
          rw [heq]
          exact ⟨o, rfl, hA, hNe⟩
  · have hemit' : getShouldEmitMessagesFromMetadata ev.meta md = false := by
      simpa using hemit
    rw [handleChatModelStream_skip_emit ev chunk md st gen ctr hemit']
    exact ⟨o, rfl, hA, hNe⟩

theorem chatEndMessagePhase_textScan (b : Bool) (d : ChatEndData)
    (st : StreamState) (gen : Nat → String) (ctr : Nat) (o : Option String)
    (hg : ∀ n, gen n ≠ "") (hinv : TextInv st o) :
    ∃ o', textScan o (chatEndMessagePhase b d st gen ctr).out = some o' ∧
      TextInv (chatEndMessagePhase b d st gen ctr).st o' := by
  obtain ⟨hA, hNe⟩ := hinv
  cases b with
  | false =>
    rw [chatEndMessagePhase_off]
    exact ⟨o, rfl, hA, hNe⟩
  | true =>
    cases ho : st.assistantMessageId with
    | some m =>
      have hom : o = some m := by rw [← hA, ho]
      subst hom
      have hm : m ≠ "" := hNe m rfl
      rw [chatEndMessagePhase_close d st gen ctr m ho hm]
      exact ⟨none, by simp [textScan], rfl, fun m' h => nomatch h⟩
    | none =>
      have hom : o = none := by rw [← hA, ho]
      subst hom
      have hA' : strTruthy st.assistantMessageId = false := by rw [ho]; rfl
      rcases chatEndMessagePhase_closed_cases d st gen ctr hg hA'
        with ⟨thr, heq⟩ | ⟨x, cs, ctr', hx, heq⟩ | ⟨ctr', heq⟩
      · rw [heq]
        exact ⟨none, rfl, ho, fun m' h => nomatch h⟩
      · rw [heq]
        exact ⟨none, by simp [sendTextMessage, textScan], ho,
          fun m' h => nomatch h⟩
      · rw [heq]
        exact ⟨none, rfl, ho, fun m' h => nomatch h⟩

theorem dispatchEvent_textScan (ev : LGEvent) (md : Option Metadata)
    (st : StreamState) (gen : Nat → String) (ctr : Nat) (o : Option String)
    (hg : ∀ n, gen n ≠ "") (hinv : TextInv st o) :
    ∃ o', textScan o (dispatchEvent ev md st gen ctr).out = some o' ∧
      TextInv (dispatchEvent ev md st gen ctr).st o' := by
  have hbinv : TextInv (backfillRunId ev st) o :=
    ⟨((backfillRunId_fields ev st).2.1).trans hinv.1, hinv.2⟩
  obtain ⟨kind, erid, enm, emeta⟩ := ev
  cases kind with
  | chatModelStream chunk =>
    rw [dispatchEvent_chatModelStream]
    exact handleChatModelStream_textScan _ chunk md _ gen ctr o hg hbinv
  | chatModelEnd data =>
    rw [dispatchEvent_chatModelEnd]
    cases data with
    | none =>
      rw [handleChatModelEnd_throw_data]
      exact ⟨o, rfl, hbinv⟩
    | some d =>
      obtain ⟨tail, hout, htail, hst⟩ :=
        handleChatModelEnd_decomp ⟨.chatModelEnd (some d), erid, enm, emeta⟩
          d md (backfillRunId ⟨.chatModelEnd (some d), erid, enm, emeta⟩ st)
          gen ctr
      obtain ⟨o', hscan, hinv'⟩ :=
        chatEndMessagePhase_textScan _ d _ gen ctr o hg hbinv
      refine ⟨o', ?_, ?_⟩
      · rw [hout, textScan_append, hscan]
        exact textScan_nonText tail o' (fun e he => (htail e he).1)
      · rw [hst]
        exact hinv'
  | toolStart input =>
    rcases handleToolStart_st ⟨.toolStart input, erid, enm, emeta⟩ input md
        (backfillRunId ⟨.toolStart input, erid, enm, emeta⟩ st) gen ctr
      with he | ⟨rid, he⟩ <;>
      refine ⟨o,
        textScan_nonText _ o (fun e hm =>
          (handleToolStart_class _ input md _ gen ctr e hm).1), ?_, hinv.2⟩
    · rw [dispatchEvent_toolStart, he]
      exact hbinv.1
    · rw [dispatchEvent_toolStart, he, resolveActionId_assistant]
      exact hbinv.1
  | toolEnd output =>
    rcases handleToolEnd_st ⟨.toolEnd output, erid, enm, emeta⟩ output md
        (backfillRunId ⟨.toolEnd output, erid, enm, emeta⟩ st) gen ctr
      with he | ⟨rid, he⟩ <;>
      refine ⟨o,
        textScan_nonText _ o (fun e hm =>
          (handleToolEnd_class _ output md _ gen ctr e hm).1), ?_, hinv.2⟩
    · rw [dispatchEvent_toolEnd, he]
      exact hbinv.1
    · rw [dispatchEvent_toolEnd, he, resolveActionId_assistant]
      exact hbinv.1
  | chainStart =>
    rw [dispatchEvent_chainStart]
    exact ⟨o, rfl,
      ((handleChainStart_fields _ _).2.1).trans hbinv.1, hinv.2⟩
  | custom => exact ⟨o, rfl, hbinv⟩
  | other => exact ⟨o, rfl, hbinv⟩

theorem handleLangGraphEvent_textScan (ev : LGEvent) (md : Option Metadata)
    (st : StreamState) (gen : Nat → String) (ctr : Nat) (o : Option String)
    (hg : ∀ n, gen n ≠ "") (hinv : TextInv st o) :
    ∃ o', textScan o (handleLangGraphEvent ev md st gen ctr).fst = some o' ∧
      TextInv (handleLangGraphEvent ev md st gen ctr).snd.fst o' := by
  obtain ⟨o', hscan, hinv'⟩ := dispatchEvent_textScan ev md st gen ctr o hg
    hinv
  refine ⟨o', ?_, ?_⟩
  · rw [handleLangGraphEvent_out, textScan_append, hscan]
    cases (dispatchEvent ev md st gen ctr).threw with
    | none => rfl
    | some m => rfl
  · rw [handleLangGraphEvent_st]
    exact hinv'

theorem processEvents_textScan (evs : List LGEvent) (md : Option Metadata)
    (st : StreamState) (gen : Nat → String) (ctr : Nat) (o : Option String)
    (hg : ∀ n, gen n ≠ "") (hinv : TextInv st o) :
    ∃ o', textScan o (processEvents evs md st gen ctr).fst = some o' ∧
      TextInv (processEvents evs md st gen ctr).snd.fst o' := by
  induction evs generalizing st ctr o with
  | nil => exact ⟨o, rfl, hinv⟩
  | cons ev rest ih =>
    obtain ⟨o1, hscan1, hinv1⟩ :=
      handleLangGraphEvent_textScan ev md st gen ctr o hg hinv
    obtain ⟨o2, hscan2, hinv2⟩ :=
      ih (handleLangGraphEvent ev md st gen ctr).snd.fst
        (handleLangGraphEvent ev md st gen ctr).snd.snd o1 hinv1
    refine ⟨o2, ?_, hinv2⟩
    simp only [processEvents]
    rw [textScan_append, hscan1]
    exact hscan2

theorem backfillRunId_noop (ev : LGEvent) (st : StreamState)
    (h : st.runId ≠ "") : backfillRunId ev st = st := by
  unfold backfillRunId
  simp [h]

theorem backfillRunId_noop_rid (ev : LGEvent) (st : StreamState)
    (h : strTruthy ev.runId = false) : backfillRunId ev st = st := by
  unfold backfillRunId
  simp [h]

theorem resolveActionId_runId (st : StreamState) (runId : String) :
    (resolveActionId st runId).snd.runId = st.runId := by
  unfold resolveActionId
  split
  · split <;> rfl
  · rfl

theorem emitEndToolCalls_nil_frontend (tcs : List ToolCall)
    (gen : Nat → String) (ctr : Nat) :
    emitEndToolCalls tcs [] gen ctr = ([], ctr) := by
  induction tcs generalizing ctr with
  | nil => rfl
  | cons tc rest ih =>
    unfold emitEndToolCalls
    cases tc.name with
    | none => exact ih ctr
    | some nm => simp [ih]

theorem getShouldEmitMessages_off (em : Option Metadata) (mdm : Metadata)
    (h1 : em.bind (·.emitMessages) = none)
    (h2 : mdm.emitMessages = some false) :
    getShouldEmitMessagesFromMetadata em (some mdm) = false := by
  unfold getShouldEmitMessagesFromMetadata
  rw [h1]
  simp [h2]

theorem handleChatModelEnd_close_exact (ev : LGEvent) (d : ChatEndData)
    (md : Option Metadata) (st : StreamState) (gen : Nat → String)
    (ctr : Nat) (m : String) (ai : AIMessage)
    (hemit : getShouldEmitMessagesFromMetadata ev.meta md = true)
    (hA : st.assistantMessageId = some m) (hm : m ≠ "")
    (hout : d.output = some ai) (hfa : st.frontendActions = []) :
    handleChatModelEnd ev (some d) md st gen ctr =
      ⟨[.textMessageEnd m], { st with assistantMessageId := none }, ctr,
        none⟩ := by
  unfold handleChatModelEnd
  dsimp only
  rw [hemit, chatEndMessagePhase_close d st gen ctr m hA hm]
  dsimp only
  rw [hout]
  dsimp only
  cases htc : ai.tool_calls with
  | none => rfl
  | some tcs =>
    dsimp only
    split
    · rw [show ({ st with assistantMessageId := none} :
          StreamState).frontendActions = [] from hfa,
        emitEndToolCalls_nil_frontend]
      simp
    · rfl

theorem handleLangGraphEvent_no_text_of_off (ev : LGEvent)
    (md : Option Metadata) (st : StreamState) (gen : Nat → String)
    (ctr : Nat)
    (hoff : getShouldEmitMessagesFromMetadata ev.meta md = false) :
    ∀ e ∈ (handleLangGraphEvent ev md st gen ctr).fst,
      isTextEvent e = false := by
  intro e he
  rw [handleLangGraphEvent_out] at he
  rw [List.mem_append] at he
  rcases he with he | he
  · obtain ⟨kind, erid, enm, emeta⟩ := ev
    cases kind with
    | chatModelStream chunk =>
      rw [dispatchEvent_chatModelStream,
        handleChatModelStream_skip_emit _ chunk md _ gen ctr hoff] at he
      simp at he
    | chatModelEnd data =>
      cases data with
      | none =>
        rw [dispatchEvent_chatModelEnd, handleChatModelEnd_throw_data] at he
        simp at he
      | some d =>
        rw [dispatchEvent_chatModelEnd] at he
        obtain ⟨tail, hout, htail, hst⟩ :=
          handleChatModelEnd_decomp
            ⟨.chatModelEnd (some d), erid, enm, emeta⟩ d md
            (backfillRunId ⟨.chatModelEnd (some d), erid, enm, emeta⟩ st)
            gen ctr
        rw [hout] at he
        rw [List.mem_append] at he
        rcases he with he | he
        · rw [show getShouldEmitMessagesFromMetadata
              (⟨LGEventKind.chatModelEnd (some d), erid, enm, emeta⟩ :
                LGEvent).meta md = false from hoff,
            chatEndMessagePhase_off] at he
          simp at he
        · exact (htail e he).1
    | toolStart input =>
      rw [dispatchEvent_toolStart] at he
      exact (handleToolStart_class _ input md _ gen ctr e he).1
    | toolEnd output =>
      rw [dispatchEvent_toolEnd] at he
      exact (handleToolEnd_class _ output md _ gen ctr e he).1
    | chainStart =>
      rw [dispatchEvent_chainStart] at he
      simp at he
    | custom => simp [dispatchEvent] at he
    | other => simp [dispatchEvent] at he
  · cases hthrew : (dispatchEvent ev md st gen ctr).threw with
    | none => rw [hthrew] at he; simp at he
    | some m =>
      rw [hthrew] at he
      simp only [List.mem_singleton] at he
      subst he
      rfl

theorem processEvents_stream_open (rest : List AIMessageChunk)
    (st : StreamState) (gen : Nat → String) (ctr : Nat) (X : String)
    (hX : st.assistantMessageId = some X) (hXne : X ≠ "")
    (hc : ∀ c ∈ rest, contentTruthy (resolveMessageContent c.content) =
        true ∧ strTruthy c.finishReason = false) :
    processEvents
        (rest.map (fun c =>
          (⟨.chatModelStream (some c), none, none, none⟩ : LGEvent)))
        none st gen ctr =
      (rest.map (fun c =>
        RuntimeEvent.textMessageContent X
          ((resolveMessageContent c.content).getD "")), st, ctr) := by
  induction rest with
  | nil => rfl
  | cons c cs ih =>
    have hcc := hc c (List.mem_cons_self c cs)
    have hcs : ∀ c' ∈ cs,
        contentTruthy (resolveMessageContent c'.content) = true ∧
          strTruthy c'.finishReason = false :=
      fun c' h' => hc c' (List.mem_cons_of_mem c h')
    simp only [List.map_cons, processEvents]
    have hd : dispatchEvent
          ⟨.chatModelStream (some c), none, none, none⟩ none st gen ctr =
        ⟨[RuntimeEvent.textMessageContent X
            ((resolveMessageContent c.content).getD "")], st, ctr, none⟩ := by
      rw [dispatchEvent_chatModelStream,
        backfillRunId_noop_rid
          ⟨.chatModelStream (some c), none, none, none⟩ st rfl,
        handleChatModelStream_content_open
          ⟨.chatModelStream (some c), none, none, none⟩ c none st gen ctr X
          rfl hcc.2 hX hXne hcc.1]
    have hstep :
        handleLangGraphEvent
            ⟨.chatModelStream (some c), none, none, none⟩ none st gen ctr =
          ([RuntimeEvent.textMessageContent X
              ((resolveMessageContent c.content).getD "")], st, ctr) := by
      unfold handleLangGraphEvent
      rw [hd]
    rw [hstep, ih hcs]
    simp

/-- Constant fresh-id generator used for concrete runs. -/
def genU : Nat → String := fun _ => "u"

theorem genU_ne (n : Nat) : genU n ≠ "" := by
  show "u" ≠ ""
  decide

/-! Claim theorems. -/

/-- C5: for every run, whether the upstream event stream is exhausted
normally or the source itself throws, the Emission Sink close operation
is invoked exactly once, on the cleanup path executed on every exit
route of stream processing. -/
theorem C5_sink_closed_exactly_once (runIdOpt : Option String)
    (md : Option Metadata) (up : Upstream) (gen : Nat → String) :
    (processLangGraphStream runIdOpt md up gen).closes = 1 := by
  cases up <;> rfl

/-- C7: a chat-model stream chunk carrying a terminal finish marker
emits no events at all — no TextMessageContent in particular — even
when the chunk also carries non-empty text content. -/
theorem C7_finish_marker_no_emission (c : AIMessageChunk)
    (erid enm : Option String) (emeta md : Option Metadata)
    (st : StreamState) (gen : Nat → String) (ctr : Nat)
    (hfin : strTruthy c.finishReason = true) :
    (handleLangGraphEvent ⟨.chatModelStream (some c), erid, enm, emeta⟩
      md st gen ctr).fst = [] := by
  rw [handleLangGraphEvent_out, dispatchEvent_chatModelStream,
    handleChatModelStream_skip_finish _ c md _ gen ctr hfin]
  rfl

/-- C7 witness: a concrete chunk with finish marker "stop" and trailing
content "tail" emits nothing. -/
theorem C7_finish_marker_no_emission_witness :
    strTruthy (some "stop") = true ∧
      (handleLangGraphEvent
        ⟨.chatModelStream (some ⟨some "m1", some (.str "tail"),
          some "stop"⟩), none, none, none⟩ none
        ⟨"run", none, none, [], []⟩ (fun _ => "u") 0).fst = [] :=
  ⟨by decide,
    C7_finish_marker_no_emission ⟨some "m1", some (.str "tail"),
      some "stop"⟩ none none none none ⟨"run", none, none, [], []⟩
      (fun _ => "u") 0 (by decide)⟩

/-- C10: a tool-invocation start arriving while a text span is open
emits no TextMessageEnd and leaves `assistantMessageId` unchanged, and
the emitted ActionExecutionStart's `parentMessageId` equals the open
span's message identifier: the nest-under-parent variant is the
implemented choice. -/
theorem C10_nest_under_parent (input : Option ToolInput)
    (enm : Option String) (emeta md : Option Metadata) (st : StreamState)
    (gen : Nat → String) (ctr : Nat) (r m : String)
    (hemit : getShouldEmitToolCallsFromMetadata emeta md = true)
    (hrne : r ≠ "") (hA : st.assistantMessageId = some m) (hm : m ≠ "")
    (hrun : st.runId ≠ "") :
    (handleLangGraphEvent ⟨.toolStart input, some r, enm, emeta⟩
        md st gen ctr).fst =
      [.actionExecutionStart (resolveActionId st r).fst
          (strOrElse enm (strOrElse st.currentNodeName "tool")) (some m),
        .actionExecutionArgs (resolveActionId st r).fst
          (extractArgs input)] ∧
      (handleLangGraphEvent ⟨.toolStart input, some r, enm, emeta⟩
        md st gen ctr).snd.fst.assistantMessageId = some m ∧
      ∀ e ∈ (handleLangGraphEvent ⟨.toolStart input, some r, enm, emeta⟩
        md st gen ctr).fst, ∀ x, e ≠ .textMessageEnd x := by
  have hb := backfillRunId_noop ⟨.toolStart input, some r, enm, emeta⟩
    st hrun
  have hts := handleToolStart_emit
    ⟨.toolStart input, some r, enm, emeta⟩ input md st gen ctr r hemit
    rfl hrne
  have hout : (handleLangGraphEvent
      ⟨.toolStart input, some r, enm, emeta⟩ md st gen ctr).fst =
      [.actionExecutionStart (resolveActionId st r).fst
          (strOrElse enm (strOrElse st.currentNodeName "tool")) (some m),
        .actionExecutionArgs (resolveActionId st r).fst
          (extractArgs input)] := by
    rw [handleLangGraphEvent_out, dispatchEvent_toolStart, hb, hts]
    simp [hA]
  refine ⟨hout, ?_, ?_⟩
  · rw [handleLangGraphEvent_st, dispatchEvent_toolStart, hb, hts]
    dsimp only
    rw [resolveActionId_assistant, hA]
  · intro e he x
    rw [hout] at he
    simp only [List.mem_cons, List.mem_singleton, List.not_mem_nil,
      or_false] at he
    rcases he with rfl | rfl <;> simp

/-- C10 witness: a tool start with run id "r1" while text span "m1" is
open nests under it without closing it. -/
theorem C10_nest_under_parent_witness :
    getShouldEmitToolCallsFromMetadata none none = true ∧
      ("r1" : String) ≠ "" ∧
      (⟨"run", some "m1", none, [], []⟩ :
        StreamState).assistantMessageId = some "m1" ∧
      ("m1" : String) ≠ "" ∧
      (⟨"run", some "m1", none, [], []⟩ : StreamState).runId ≠ "" ∧
      ((handleLangGraphEvent
          ⟨.toolStart (some (.str "q")), some "r1", some "search", none⟩
          none ⟨"run", some "m1", none, [], []⟩ (fun _ => "u") 0).fst =
        [.actionExecutionStart
            (resolveActionId ⟨"run", some "m1", none, [], []⟩ "r1").fst
            (strOrElse (some "search")
              (strOrElse (⟨"run", some "m1", none, [], []⟩ :
                StreamState).currentNodeName "tool")) (some "m1"),
          .actionExecutionArgs
            (resolveActionId ⟨"run", some "m1", none, [], []⟩ "r1").fst
            (extractArgs (some (.str "q")))] ∧
        (handleLangGraphEvent
          ⟨.toolStart (some (.str "q")), some "r1", some "search", none⟩
          none ⟨"run", some "m1", none, [], []⟩ (fun _ => "u")
          0).snd.fst.assistantMessageId = some "m1" ∧
        ∀ e ∈ (handleLangGraphEvent
          ⟨.toolStart (some (.str "q")), some "r1", some "search", none⟩
          none ⟨"run", some "m1", none, [], []⟩ (fun _ => "u") 0).fst,
          ∀ x, e ≠ .textMessageEnd x) :=
  ⟨by decide, by decide, rfl, by decide, by decide,
    C10_nest_under_parent (some (.str "q")) (some "search") none none
      ⟨"run", some "m1", none, [], []⟩ (fun _ => "u") 0 "r1" "m1"
      (by decide) (by decide) rfl (by decide) (by decide)⟩

/-- C6: a tool-invocation start (with tool-call emission enabled) emits
exactly ActionExecutionStart then ActionExecutionArgs; the action name
is the event name, else the current node label, else the literal
"tool"; the args string is the raw string input, else the nested string
`input` field, else the object's JSON serialization, else the empty
string on serialization failure. -/
theorem C6_tool_start_emission (input : Option ToolInput)
    (enm : Option String) (emeta md : Option Metadata) (st : StreamState)
    (gen : Nat → String) (ctr : Nat) (r : String)
    (hemit : getShouldEmitToolCallsFromMetadata emeta md = true)
    (hrne : r ≠ "") (hrun : st.runId ≠ "") :
    ∃ aid, (handleLangGraphEvent ⟨.toolStart input, some r, enm, emeta⟩
        md st gen ctr).fst =
      [.actionExecutionStart aid
          (strOrElse enm (strOrElse st.currentNodeName "tool"))
          st.assistantMessageId,
        .actionExecutionArgs aid (extractArgs input)] ∧
      (∀ nm, enm = some nm → nm ≠ "" →
        strOrElse enm (strOrElse st.currentNodeName "tool") = nm) ∧
      (strTruthy enm = false → ∀ nd, st.currentNodeName = some nd →
        nd ≠ "" → strOrElse enm (strOrElse st.currentNodeName "tool") =
          nd) ∧
      (strTruthy enm = false → strTruthy st.currentNodeName = false →
        strOrElse enm (strOrElse st.currentNodeName "tool") = "tool") ∧
      (∀ s, input = some (.str s) → extractArgs input = s) ∧
      (∀ s, input = some (.objWithInput s) → extractArgs input = s) ∧
      (∀ j, input = some (.obj (some j)) → extractArgs input = j) ∧
      (input = some (.obj none) → extractArgs input = "") := by
  have hb := backfillRunId_noop ⟨.toolStart input, some r, enm, emeta⟩
    st hrun
  have hts := handleToolStart_emit
    ⟨.toolStart input, some r, enm, emeta⟩ input md st gen ctr r hemit
    rfl hrne
  refine ⟨(resolveActionId st r).fst, ?_, ?_, ?_, ?_, ?_, ?_, ?_, ?_⟩
  · rw [handleLangGraphEvent_out, dispatchEvent_toolStart, hb, hts]
    simp
  · intro nm h hne
    subst h
    simp [strOrElse, hne]
  · intro h nd hnd hne
    cases henm : enm with
    | none => simp [strOrElse, hnd, hne]
    | some s =>
      have hs : s = "" := by
        rw [henm] at h; simpa [strTruthy] using h
      subst hs
      simp [strOrElse, hnd, hne]
  · intro h h2
    cases henm : enm with
    | none =>
      cases hcn : st.currentNodeName with
      | none => simp [strOrElse]
      | some s =>
        have hs : s = "" := by
          rw [hcn] at h2; simpa [strTruthy] using h2
        subst hs
        simp [strOrElse]
    | some s =>
      have hs : s = "" := by
        rw [henm] at h; simpa [strTruthy] using h
      subst hs
      cases hcn : st.currentNodeName with
      | none => simp [strOrElse]
      | some s2 =>
        have hs2 : s2 = "" := by
          rw [hcn] at h2; simpa [strTruthy] using h2
        subst hs2
        simp [strOrElse]
  · intro s h; subst h; rfl
  · intro s h; subst h; rfl
  · intro j h; subst h; rfl
  · intro h; subst h; rfl

/-- C6 witness: a concrete tool start with name "search" and an object
input exposing a nested string `input` field. -/
theorem C6_tool_start_emission_witness :
    getShouldEmitToolCallsFromMetadata none none = true ∧
      ("r1" : String) ≠ "" ∧
      (⟨"run", none, none, [], []⟩ : StreamState).runId ≠ "" ∧
      ∃ aid, (handleLangGraphEvent
          ⟨.toolStart (some (.objWithInput "args-json")), some "r1",
            some "search", none⟩ none ⟨"run", none, none, [], []⟩
          (fun _ => "u") 0).fst =
        [.actionExecutionStart aid
            (strOrElse (some "search")
              (strOrElse (⟨"run", none, none, [], []⟩ :
                StreamState).currentNodeName "tool"))
            (⟨"run", none, none, [], []⟩ :
              StreamState).assistantMessageId,
          .actionExecutionArgs aid
            (extractArgs (some (.objWithInput "args-json")))] ∧
        (∀ nm, (some "search" : Option String) = some nm → nm ≠ "" →
          strOrElse (some "search")
            (strOrElse (⟨"run", none, none, [], []⟩ :
              StreamState).currentNodeName "tool") = nm) ∧
        (strTruthy (some "search") = false →
          ∀ nd, (⟨"run", none, none, [], []⟩ :
            StreamState).currentNodeName = some nd → nd ≠ "" →
          strOrElse (some "search")
            (strOrElse (⟨"run", none, none, [], []⟩ :
              StreamState).currentNodeName "tool") = nd) ∧
        (strTruthy (some "search") = false →
          strTruthy (⟨"run", none, none, [], []⟩ :
            StreamState).currentNodeName = false →
          strOrElse (some "search")
            (strOrElse (⟨"run", none, none, [], []⟩ :
              StreamState).currentNodeName "tool") = "tool") ∧
        (∀ s, (some (.objWithInput "args-json") : Option ToolInput) =
          some (.str s) →
          extractArgs (some (.objWithInput "args-json")) = s) ∧
        (∀ s, (some (.objWithInput "args-json") : Option ToolInput) =
          some (.objWithInput s) →
          extractArgs (some (.objWithInput "args-json")) = s) ∧
        (∀ j, (some (.objWithInput "args-json") : Option ToolInput) =
          some (.obj (some j)) →
          extractArgs (some (.objWithInput "args-json")) = j) ∧
        ((some (.objWithInput "args-json") : Option ToolInput) =
          some (.obj none) →
          extractArgs (some (.objWithInput "args-json")) = "") :=
  ⟨by decide, by decide, by decide,
    C6_tool_start_emission (some (.objWithInput "args-json"))
      (some "search") none none ⟨"run", none, none, [], []⟩
      (fun _ => "u") 0 "r1" (by decide) (by decide) (by decide)⟩

/-- C8: content resolution yields no content for missing content, the
empty string, and structured sequences without a text-typed part; a
chunk whose content resolves to no content emits nothing, and an
empty-string TextMessageContent is never emitted by the stream
handler. -/
theorem C8_empty_content_suppressed :
    resolveMessageContent none = none ∧
      resolveMessageContent (some (.str "")) = none ∧
      (∀ l, (∀ p ∈ l, isTextPart p = false) →
        resolveMessageContent (some (.parts l)) = none) ∧
      (∀ (ev : LGEvent) (c : AIMessageChunk) (md : Option Metadata)
        (st : StreamState) (gen : Nat → String) (ctr : Nat),
        resolveMessageContent c.content = none →
        (handleChatModelStream ev (some c) md st gen ctr).out = []) ∧
      (∀ (ev : LGEvent) (chunk : Option AIMessageChunk)
        (md : Option Metadata) (st : StreamState) (gen : Nat → String)
        (ctr : Nat) (m : String),
        RuntimeEvent.textMessageContent m "" ∉
          (handleChatModelStream ev chunk md st gen ctr).out) := by
  refine ⟨rfl, rfl, ?_, ?_, ?_⟩
  · intro l hl
    unfold resolveMessageContent
    by_cases he : l.isEmpty
    · simp [he]
    · have hf : l.find? isTextPart = none :=
        List.find?_eq_none.mpr (fun x hx => by simp [hl x hx])
      simp [he, hf]
  · intro ev c md st gen ctr h
    have hc' : contentTruthy (resolveMessageContent c.content) = false :=
      by rw [h]; rfl
    obtain ⟨ctr', heq⟩ :=
      handleChatModelStream_no_content ev c md st gen ctr hc'
    rw [heq]
  · intro ev chunk md st gen ctr m hmem
    by_cases hemit : getShouldEmitMessagesFromMetadata ev.meta md = true
    · cases chunk with
      | none =>
        rw [handleChatModelStream_throw_chunk ev md st gen ctr hemit]
          at hmem
        simp at hmem
      | some c =>
        by_cases hfin : strTruthy c.finishReason = true
        · rw [handleChatModelStream_skip_finish ev c md st gen ctr hfin]
            at hmem
          simp at hmem
        · have hfin' : strTruthy c.finishReason = false := by
            simpa using hfin
          by_cases hc : contentTruthy (resolveMessageContent c.content) =
              true
          · have hcs : (resolveMessageContent c.content).getD "" ≠ "" := by
              cases hr : resolveMessageContent c.content with
              | none => rw [hr] at hc; simp [contentTruthy] at hc
              | some s => rw [hr] at hc; simpa [contentTruthy] using hc
            by_cases hat : strTruthy st.assistantMessageId = true
            · obtain ⟨mm, hmm, hmmne⟩ : ∃ mm,
                  st.assistantMessageId = some mm ∧ mm ≠ "" := by
                cases hax : st.assistantMessageId with
                | none => rw [hax] at hat; simp [strTruthy] at hat
                | some s =>
                  exact ⟨s, rfl, by
                    rw [hax] at hat; simpa [strTruthy] using hat⟩
              rw [handleChatModelStream_content_open ev c md st gen ctr
                mm hemit hfin' hmm hmmne hc] at hmem
              simp only [List.mem_singleton] at hmem
              exact hcs (by injection hmem with h1 h2; exact h2.symm)
            · have hat' : strTruthy st.assistantMessageId = false := by
                simpa using hat
              rw [handleChatModelStream_content_fresh ev c md st gen ctr
                hemit hfin' hat' hc] at hmem
              by_cases hid : strTruthy c.id = true
              · rw [if_pos hid] at hmem
                simp only [List.mem_cons, List.mem_singleton,
                  List.not_mem_nil, or_false] at hmem
                rcases hmem with hmem | hmem
                · exact RuntimeEvent.noConfusion hmem
                · exact hcs (by injection hmem with h1 h2; exact h2.symm)
              · rw [if_neg hid] at hmem
                simp only [List.mem_cons, List.mem_singleton,
                  List.not_mem_nil, or_false] at hmem
                rcases hmem with hmem | hmem
                · exact RuntimeEvent.noConfusion hmem
                · exact hcs (by injection hmem with h1 h2; exact h2.symm)
          · have hc' : contentTruthy (resolveMessageContent c.content) =
                false := by simpa using hc
            obtain ⟨ctr', heq⟩ :=
              handleChatModelStream_no_content ev c md st gen ctr hc'
            rw [heq] at hmem
            simp at hmem
    · have hemit' : getShouldEmitMessagesFromMetadata ev.meta md =
          false := by simpa using hemit
      rw [handleChatModelStream_skip_emit ev chunk md st gen ctr hemit']
        at hmem
      simp at hmem

/-- C8 witness: a parts array without a text part resolves to no
content; an empty-string chunk emits nothing; no empty Content event
appears for a concrete non-empty chunk. -/
theorem C8_empty_content_suppressed_witness :
    resolveMessageContent (some (.parts [.other])) = none ∧
      (handleChatModelStream
        ⟨.chatModelStream (some ⟨some "m1", some (.str ""), none⟩),
          none, none, none⟩ (some ⟨some "m1", some (.str ""), none⟩)
        none ⟨"run", none, none, [], []⟩ (fun _ => "u") 0).out = [] ∧
      RuntimeEvent.textMessageContent "m1" "" ∉
        (handleChatModelStream
          ⟨.chatModelStream (some ⟨some "m1", some (.str "hi"), none⟩),
            none, none, none⟩
          (some ⟨some "m1", some (.str "hi"), none⟩) none
          ⟨"run", none, none, [], []⟩ (fun _ => "u") 0).out :=
  ⟨C8_empty_content_suppressed.2.2.1 [.other] (by decide),
    C8_empty_content_suppressed.2.2.2.1
      ⟨.chatModelStream (some ⟨some "m1", some (.str ""), none⟩),
        none, none, none⟩ ⟨some "m1", some (.str ""), none⟩ none
      ⟨"run", none, none, [], []⟩ (fun _ => "u") 0 (by decide),
    C8_empty_content_suppressed.2.2.2.2
      ⟨.chatModelStream (some ⟨some "m1", some (.str "hi"), none⟩),
        none, none, none⟩
      (some ⟨some "m1", some (.str "hi"), none⟩) none
      ⟨"run", none, none, [], []⟩ (fun _ => "u") 0 "m1"⟩

/-- C1 counterexample: a run in which a chunk opens text span "m1", a
tool start then emits ActionExecutionStart while that span is still
open (closed only later by the completion event), violating the
claimed mutual exclusion of open text and action spans. -/
theorem C1_no_overlap_counterexample :
    noOverlap (processEvents
      [⟨.chatModelStream (some ⟨some "m1", some (.str "Hel"), none⟩),
          some "runA", none, none⟩,
        ⟨.toolStart (some (.str "q")), some "r1", some "search", none⟩,
        ⟨.chatModelEnd (some ⟨some ⟨some "m1", none, none⟩⟩),
          some "runA", none, none⟩]
      none ⟨"run", none, none, [], []⟩ (fun _ => "u") 0).fst = false := by
  decide

/-- C1 amended: at most one open text span exists at any instant — a
TextMessageStart is only emitted when no text span is open, and every
Content/End carries the open span's identifier — while an action span
opened during an open text span nests under it instead of being
excluded. -/
theorem C1_amended_single_text_span (evs : List LGEvent)
    (md : Option Metadata) (st : StreamState) (gen : Nat → String)
    (ctr : Nat) (hg : ∀ n, gen n ≠ "")
    (hA : st.assistantMessageId = none) :
    (textScan none (processEvents evs md st gen ctr).fst).isSome =
      true := by
  obtain ⟨o', h, _⟩ := processEvents_textScan evs md st gen ctr none hg
    ⟨hA, fun m hm => nomatch hm⟩
  rw [h]
  rfl

/-- C1 amended witness: the text-span discipline holds on the concrete
counterexample run. -/
theorem C1_amended_single_text_span_witness :
    (∀ n : Nat, genU n ≠ "") ∧
      (⟨"run", none, none, [], []⟩ :
        StreamState).assistantMessageId = none ∧
      (textScan none (processEvents
        [⟨.chatModelStream (some ⟨some "m1", some (.str "Hel"), none⟩),
            some "runA", none, none⟩,
          ⟨.toolStart (some (.str "q")), some "r1", some "search",
            none⟩,
          ⟨.chatModelEnd (some ⟨some ⟨some "m1", none, none⟩⟩),
            some "runA", none, none⟩]
        none ⟨"run", none, none, [], []⟩ genU 0).fst).isSome = true :=
  ⟨genU_ne, rfl,
    C1_amended_single_text_span
      [⟨.chatModelStream (some ⟨some "m1", some (.str "Hel"), none⟩),
          some "runA", none, none⟩,
        ⟨.toolStart (some (.str "q")), some "r1", some "search", none⟩,
        ⟨.chatModelEnd (some ⟨some ⟨some "m1", none, none⟩⟩),
          some "runA", none, none⟩]
      none ⟨"run", none, none, [], []⟩ genU 0 genU_ne rfl⟩

/-- C3: for a tool run whose start and end events carry the same
upstream run identifier, the action-execution identifier on the emitted
Args, End and Result equals the one on the ActionExecutionStart, and
the correlation-map entry for that run identifier, once assigned, is
never overwritten or regenerated by any later processing. -/
theorem C3_identifier_stability (inputS : Option ToolInput)
    (outputE : Option ToolMsg) (nameS nameE : Option String)
    (metaS metaE md : Option Metadata) (st : StreamState)
    (gen : Nat → String) (ctr : Nat) (r : String)
    (hS : getShouldEmitToolCallsFromMetadata metaS md = true)
    (hE : getShouldEmitToolCallsFromMetadata metaE md = true)
    (hrne : r ≠ "") (hrun : st.runId ≠ "") :
    ∃ aid, aid ≠ "" ∧
      (handleLangGraphEvent ⟨.toolStart inputS, some r, nameS, metaS⟩
          md st gen ctr).fst =
        [.actionExecutionStart aid
            (strOrElse nameS (strOrElse st.currentNodeName "tool"))
            st.assistantMessageId,
          .actionExecutionArgs aid (extractArgs inputS)] ∧
      (∃ tail,
        (handleLangGraphEvent ⟨.toolEnd outputE, some r, nameE, metaE⟩
            md
            (handleLangGraphEvent
              ⟨.toolStart inputS, some r, nameS, metaS⟩ md st gen
              ctr).snd.fst gen
            (handleLangGraphEvent
              ⟨.toolStart inputS, some r, nameS, metaS⟩ md st gen
              ctr).snd.snd).fst =
          RuntimeEvent.actionExecutionEnd aid :: tail ∧
        ∀ e ∈ tail, eventActionId e = some aid ∨ isRunError e = true) ∧
      lookupAssoc
        (handleLangGraphEvent ⟨.toolStart inputS, some r, nameS, metaS⟩
          md st gen ctr).snd.fst.toolRunIdToActionId r = some aid ∧
      (∀ (evs2 : List LGEvent) (ctr2 : Nat),
        lookupAssoc
          (processEvents evs2 md
            (handleLangGraphEvent
              ⟨.toolEnd outputE, some r, nameE, metaE⟩ md
              (handleLangGraphEvent
                ⟨.toolStart inputS, some r, nameS, metaS⟩ md st gen
                ctr).snd.fst gen
              (handleLangGraphEvent
                ⟨.toolStart inputS, some r, nameS, metaS⟩ md st gen
                ctr).snd.snd).snd.fst gen
            ctr2).snd.fst.toolRunIdToActionId r = some aid) := by
  have hb1 := backfillRunId_noop
    ⟨.toolStart inputS, some r, nameS, metaS⟩ st hrun
  have hts := handleToolStart_emit
    ⟨.toolStart inputS, some r, nameS, metaS⟩ inputS md st gen ctr r hS
    rfl hrne
  set stA := (handleLangGraphEvent
    ⟨.toolStart inputS, some r, nameS, metaS⟩ md st gen ctr).snd.fst
    with hstA
  set ctrA := (handleLangGraphEvent
    ⟨.toolStart inputS, some r, nameS, metaS⟩ md st gen ctr).snd.snd
    with hctrA
  set aid := (resolveActionId st r).fst with haid
  have haidne : aid ≠ "" := resolveActionId_fst_ne st r hrne
  have hst1 : stA = (resolveActionId st r).snd := by
    rw [hstA, handleLangGraphEvent_st, dispatchEvent_toolStart, hb1, hts]
  have hout1 : (handleLangGraphEvent
      ⟨.toolStart inputS, some r, nameS, metaS⟩ md st gen ctr).fst =
      [.actionExecutionStart aid
          (strOrElse nameS (strOrElse st.currentNodeName "tool"))
          st.assistantMessageId,
        .actionExecutionArgs aid (extractArgs inputS)] := by
    rw [handleLangGraphEvent_out, dispatchEvent_toolStart, hb1, hts]
    simp
  have hlook1 : lookupAssoc stA.toolRunIdToActionId r = some aid := by
    rw [hst1]
    exact resolveActionId_lookup st r
  have hrun1 : stA.runId ≠ "" := by
    rw [hst1, resolveActionId_runId]
    exact hrun
  have hstab := resolveActionId_stable stA r aid hlook1 haidne
  have hb2 := backfillRunId_noop
    ⟨.toolEnd outputE, some r, nameE, metaE⟩ stA hrun1
  have hend : ∃ tail,
      (handleLangGraphEvent ⟨.toolEnd outputE, some r, nameE, metaE⟩
          md stA gen ctrA).fst =
        RuntimeEvent.actionExecutionEnd aid :: tail ∧
      (∀ e ∈ tail, eventActionId e = some aid ∨ isRunError e = true) ∧
      (handleLangGraphEvent ⟨.toolEnd outputE, some r, nameE, metaE⟩
          md stA gen ctrA).snd.fst = stA := by
    cases hoc : outputE.bind (fun x => x.content) with
    | none =>
      have h := handleToolEnd_emit_none
        ⟨.toolEnd outputE, some r, nameE, metaE⟩ outputE md stA gen ctrA
        r hE rfl hrne hoc
      rw [handleLangGraphEvent_out, handleLangGraphEvent_st,
        dispatchEvent_toolEnd, hb2, h, hstab]
      refine ⟨[.actionExecutionResult aid
        (strOrElse nameE (strOrElse stA.currentNodeName "tool")) ""],
        by simp, ?_, rfl⟩
      intro e he
      simp only [List.mem_singleton] at he
      subst he
      exact Or.inl rfl
    | some tc =>
      cases tc with
      | str s =>
        have h := handleToolEnd_emit_str
          ⟨.toolEnd outputE, some r, nameE, metaE⟩ outputE md stA gen
          ctrA r s hE rfl hrne hoc
        rw [handleLangGraphEvent_out, handleLangGraphEvent_st,
          dispatchEvent_toolEnd, hb2, h, hstab]
        refine ⟨[.actionExecutionResult aid
          (strOrElse nameE (strOrElse stA.currentNodeName "tool")) s],
          by simp, ?_, rfl⟩
        intro e he
        simp only [List.mem_singleton] at he
        subst he
        exact Or.inl rfl
      | arr ser =>
        cases ser with
        | some j =>
          have h := handleToolEnd_emit_json
            ⟨.toolEnd outputE, some r, nameE, metaE⟩ outputE md stA gen
            ctrA r j hE rfl hrne hoc
          rw [handleLangGraphEvent_out, handleLangGraphEvent_st,
            dispatchEvent_toolEnd, hb2, h, hstab]
          refine ⟨[.actionExecutionResult aid
            (strOrElse nameE (strOrElse stA.currentNodeName "tool")) j],
            by simp, ?_, rfl⟩
          intro e he
          simp only [List.mem_singleton] at he
          subst he
          exact Or.inl rfl
        | none =>
          have h := handleToolEnd_throw
            ⟨.toolEnd outputE, some r, nameE, metaE⟩ outputE md stA gen
            ctrA r hE rfl hrne hoc
          rw [handleLangGraphEvent_out, handleLangGraphEvent_st,
            dispatchEvent_toolEnd, hb2, h, hstab]
          refine ⟨[.runError (convertServiceAdapterErrorMessage
            "Converting circular structure to JSON")
            "LANGGRAPH_EVENT_ERROR"], by simp, ?_, rfl⟩
          intro e he
          simp only [List.mem_singleton] at he
          subst he
          exact Or.inr rfl
  obtain ⟨tail, htail1, htail2, hst2⟩ := hend
  refine ⟨aid, haidne, hout1, ⟨tail, htail1, htail2⟩, hlook1, ?_⟩
  intro evs2 ctr2
  apply processEvents_map_monotone evs2 md _ gen ctr2 r aid haidne
  rw [hst2]
  exact hlook1

/-- C3 witness: a concrete start/end pair with run id "r1" shares one
identifier throughout and keeps its correlation entry. -/
theorem C3_identifier_stability_witness :
    getShouldEmitToolCallsFromMetadata none none = true ∧
      ("r1" : String) ≠ "" ∧
      (⟨"run", none, none, [], []⟩ : StreamState).runId ≠ "" ∧
      ∃ aid, aid ≠ "" ∧
        (handleLangGraphEvent
            ⟨.toolStart (some (.str "q")), some "r1", some "search",
              none⟩ none ⟨"run", none, none, [], []⟩ genU 0).fst =
          [.actionExecutionStart aid
              (strOrElse (some "search")
                (strOrElse (⟨"run", none, none, [], []⟩ :
                  StreamState).currentNodeName "tool"))
              (⟨"run", none, none, [], []⟩ :
                StreamState).assistantMessageId,
            .actionExecutionArgs aid
              (extractArgs (some (.str "q")))] ∧
        (∃ tail,
          (handleLangGraphEvent
              ⟨.toolEnd (some ⟨some (.str "72F")⟩), some "r1",
                some "search", none⟩ none
              (handleLangGraphEvent
                ⟨.toolStart (some (.str "q")), some "r1", some "search",
                  none⟩ none ⟨"run", none, none, [], []⟩ genU
                0).snd.fst genU
              (handleLangGraphEvent
                ⟨.toolStart (some (.str "q")), some "r1", some "search",
                  none⟩ none ⟨"run", none, none, [], []⟩ genU
                0).snd.snd).fst =
            RuntimeEvent.actionExecutionEnd aid :: tail ∧
          ∀ e ∈ tail, eventActionId e = some aid ∨
            isRunError e = true) ∧
        lookupAssoc
          (handleLangGraphEvent
            ⟨.toolStart (some (.str "q")), some "r1", some "search",
              none⟩ none ⟨"run", none, none, [], []⟩ genU
            0).snd.fst.toolRunIdToActionId "r1" = some aid ∧
        (∀ (evs2 : List LGEvent) (ctr2 : Nat),
          lookupAssoc
            (processEvents evs2 none
              (handleLangGraphEvent
                ⟨.toolEnd (some ⟨some (.str "72F")⟩), some "r1",
                  some "search", none⟩ none
                (handleLangGraphEvent
                  ⟨.toolStart (some (.str "q")), some "r1",
                    some "search", none⟩ none
                  ⟨"run", none, none, [], []⟩ genU 0).snd.fst genU
                (handleLangGraphEvent
                  ⟨.toolStart (some (.str "q")), some "r1",
                    some "search", none⟩ none
                  ⟨"run", none, none, [], []⟩ genU 0).snd.snd).snd.fst
              genU ctr2).snd.fst.toolRunIdToActionId "r1" = some aid) :=
  ⟨by decide, by decide, by decide,
    C3_identifier_stability (some (.str "q"))
      (some ⟨some (.str "72F")⟩) (some "search") (some "search") none
      none none ⟨"run", none, none, [], []⟩ genU 0 "r1" (by decide)
      (by decide) (by decide) (by decide)⟩

/-- C9: when the run metadata carries emit-messages false and events
carry no per-event override, processing emits zero TextMessageStart,
TextMessageContent and TextMessageEnd events. -/
theorem C9_emit_messages_false (evs : List LGEvent) (mdm : Metadata)
    (st : StreamState) (gen : Nat → String) (ctr : Nat)
    (hoff : mdm.emitMessages = some false)
    (hev : ∀ ev ∈ evs, ev.meta.bind (·.emitMessages) = none) :
    (processEvents evs (some mdm) st gen ctr).fst.filter isTextEvent =
      [] := by
  induction evs generalizing st ctr with
  | nil => rfl
  | cons ev rest ih =>
    simp only [processEvents]
    rw [List.filter_append]
    have hoffe : getShouldEmitMessagesFromMetadata ev.meta (some mdm) =
        false :=
      getShouldEmitMessages_off ev.meta mdm
        (hev ev (List.mem_cons_self ev rest)) hoff
    have h1 : (handleLangGraphEvent ev (some mdm) st gen ctr).fst.filter
        isTextEvent = [] := by
      rw [List.filter_eq_nil_iff]
      intro e he
      simp [handleLangGraphEvent_no_text_of_off ev (some mdm) st gen ctr
        hoffe e he]
    rw [h1, ih _ _ (fun e' h' => hev e' (List.mem_cons_of_mem ev h'))]
    rfl

/-- C9 witness: a run with emit-messages false and two non-empty
content chunks plus a completion emits no text events. -/
theorem C9_emit_messages_false_witness :
    (⟨some false, none, none⟩ : Metadata).emitMessages = some false ∧
      (∀ ev ∈ ([⟨.chatModelStream (some ⟨some "m1", some (.str "Hel"),
            none⟩), none, none, none⟩,
          ⟨.chatModelStream (some ⟨some "m1", some (.str "lo"), none⟩),
            none, none, none⟩,
          ⟨.chatModelEnd (some ⟨some ⟨some "m1", some (.str "Hello"),
            none⟩⟩), none, none, none⟩] : List LGEvent),
        ev.meta.bind (·.emitMessages) = none) ∧
      (processEvents
        [⟨.chatModelStream (some ⟨some "m1", some (.str "Hel"), none⟩),
          none, none, none⟩,
          ⟨.chatModelStream (some ⟨some "m1", some (.str "lo"), none⟩),
            none, none, none⟩,
          ⟨.chatModelEnd (some ⟨some ⟨some "m1", some (.str "Hello"),
            none⟩⟩), none, none, none⟩]
        (some ⟨some false, none, none⟩) ⟨"run", none, none, [], []⟩
        genU 0).fst.filter isTextEvent = [] :=
  ⟨rfl, by decide,
    C9_emit_messages_false
      [⟨.chatModelStream (some ⟨some "m1", some (.str "Hel"), none⟩),
        none, none, none⟩,
        ⟨.chatModelStream (some ⟨some "m1", some (.str "lo"), none⟩),
          none, none, none⟩,
        ⟨.chatModelEnd (some ⟨some ⟨some "m1", some (.str "Hello"),
          none⟩⟩), none, none, none⟩]
      ⟨some false, none, none⟩ ⟨"run", none, none, [], []⟩ genU 0 rfl
      (by decide)⟩

/-- C2: a chat-model stream of N non-empty-content chunks followed by a
completion event emits exactly one TextMessageStart, then N
TextMessageContent events in chunk order, then exactly one
TextMessageEnd, all bearing the same message identifier. -/
theorem C2_stream_message_triple (chunks : List AIMessageChunk)
    (ai : AIMessage) (st : StreamState) (gen : Nat → String) (ctr : Nat)
    (hne : chunks ≠ [])
    (hc : ∀ c ∈ chunks,
      contentTruthy (resolveMessageContent c.content) = true ∧
        strTruthy c.finishReason = false)
    (hA : st.assistantMessageId = none) (hfa : st.frontendActions = [])
    (hg : ∀ n, gen n ≠ "") :
    ∃ X, X ≠ "" ∧
      (processEvents
        (chunks.map (fun c =>
          (⟨.chatModelStream (some c), none, none, none⟩ : LGEvent)) ++
          [⟨.chatModelEnd (some ⟨some ai⟩), none, none, none⟩])
        none st gen ctr).fst =
      RuntimeEvent.textMessageStart X none ::
        (chunks.map (fun c => RuntimeEvent.textMessageContent X
          ((resolveMessageContent c.content).getD "")) ++
          [RuntimeEvent.textMessageEnd X]) := by
  cases chunks with
  | nil => exact absurd rfl hne
  | cons c0 rest =>
    have hc0 := hc c0 (List.mem_cons_self c0 rest)
    have hA' : strTruthy st.assistantMessageId = false := by rw [hA]; rfl
    have hcf := handleChatModelStream_content_fresh
      ⟨.chatModelStream (some c0), none, none, none⟩ c0 none st gen ctr
      rfl hc0.2 hA' hc0.1
    have hstep : ∃ X ctr1, X ≠ "" ∧
        handleLangGraphEvent
            ⟨.chatModelStream (some c0), none, none, none⟩ none st gen
            ctr =
          ([RuntimeEvent.textMessageStart X none,
            RuntimeEvent.textMessageContent X
              ((resolveMessageContent c0.content).getD "")],
            { st with assistantMessageId := some X }, ctr1) := by
      by_cases hid : strTruthy c0.id = true
      · refine ⟨c0.id.getD "", ctr, ?_, ?_⟩
        · cases hai : c0.id with
          | none => rw [hai] at hid; simp [strTruthy] at hid
          | some s => rw [hai] at hid; simpa [strTruthy] using hid
        · unfold handleLangGraphEvent
          rw [dispatchEvent_chatModelStream, backfillRunId_noop_rid
            ⟨.chatModelStream (some c0), none, none, none⟩ st rfl, hcf,
            if_pos hid]
      · refine ⟨gen ctr, ctr + 1, hg ctr, ?_⟩
        unfold handleLangGraphEvent
        rw [dispatchEvent_chatModelStream, backfillRunId_noop_rid
          ⟨.chatModelStream (some c0), none, none, none⟩ st rfl, hcf,
          if_neg hid]
    obtain ⟨X, ctr1, hXne, hstep⟩ := hstep
    refine ⟨X, hXne, ?_⟩
    rw [List.map_cons, List.cons_append]
    simp only [processEvents]
    rw [hstep]
    rw [processEvents_append]
    rw [processEvents_stream_open rest
      { st with assistantMessageId := some X } gen ctr1 X rfl hXne
      (fun c h => hc c (List.mem_cons_of_mem c0 h))]
    have hend : handleLangGraphEvent
        ⟨.chatModelEnd (some ⟨some ai⟩), none, none, none⟩ none
        { st with assistantMessageId := some X } gen ctr1 =
        ([RuntimeEvent.textMessageEnd X],
          { st with assistantMessageId := none }, ctr1) := by
      have hce := handleChatModelEnd_close_exact
        ⟨.chatModelEnd (some ⟨some ai⟩), none, none, none⟩ ⟨some ai⟩
        none { st with assistantMessageId := some X } gen ctr1 X ai rfl
        rfl hXne rfl hfa
      unfold handleLangGraphEvent
      rw [dispatchEvent_chatModelEnd, backfillRunId_noop_rid
        ⟨.chatModelEnd (some ⟨some ai⟩), none, none, none⟩ _ rfl, hce]
    simp only [processEvents]
    rw [hend]
    simp

/-- C2 witness: chunks "Hel" and "lo" then a completion yield
Start(X), Content(X,"Hel"), Content(X,"lo"), End(X) with X = "m1". -/
theorem C2_stream_message_triple_witness :
    ([(⟨some "m1", some (.str "Hel"), none⟩ : AIMessageChunk),
        ⟨some "m1", some (.str "lo"), none⟩] ≠ []) ∧
      (∀ c ∈ [(⟨some "m1", some (.str "Hel"), none⟩ : AIMessageChunk),
          ⟨some "m1", some (.str "lo"), none⟩],
        contentTruthy (resolveMessageContent c.content) = true ∧
          strTruthy c.finishReason = false) ∧
      (⟨"run", none, none, [], []⟩ :
        StreamState).assistantMessageId = none ∧
      (⟨"run", none, none, [], []⟩ :
        StreamState).frontendActions = [] ∧
      ∃ X, X ≠ "" ∧
        (processEvents
          ([(⟨some "m1", some (.str "Hel"), none⟩ : AIMessageChunk),
              ⟨some "m1", some (.str "lo"), none⟩].map (fun c =>
            (⟨.chatModelStream (some c), none, none, none⟩ :
              LGEvent)) ++
            [⟨.chatModelEnd (some ⟨some ⟨some "m1", none, none⟩⟩),
              none, none, none⟩])
          none ⟨"run", none, none, [], []⟩ genU 0).fst =
        RuntimeEvent.textMessageStart X none ::
          ([(⟨some "m1", some (.str "Hel"), none⟩ : AIMessageChunk),
              ⟨some "m1", some (.str "lo"), none⟩].map (fun c =>
            RuntimeEvent.textMessageContent X
              ((resolveMessageContent c.content).getD "")) ++
            [RuntimeEvent.textMessageEnd X]) :=
  ⟨by decide, by decide, rfl, rfl,
    C2_stream_message_triple
      [⟨some "m1", some (.str "Hel"), none⟩,
        ⟨some "m1", some (.str "lo"), none⟩]
      ⟨some "m1", none, none⟩ ⟨"run", none, none, [], []⟩ genU 0
      (by decide) (by decide) rfl rfl genU_ne⟩

/-- C4: a malformed event (a tool end whose output cannot be
serialized) is contained: exactly one RunError with the stable code is
emitted for it after its partial emissions, nothing is rethrown, and
every subsequent event is still processed with its emissions in the
original order. -/
theorem C4_error_containment (pre post : List LGEvent)
    (outputE : Option ToolMsg) (enm : Option String)
    (emeta md : Option Metadata) (st : StreamState) (gen : Nat → String)
    (ctr : Nat) (r : String)
    (hE : getShouldEmitToolCallsFromMetadata emeta md = true)
    (hrne : r ≠ "")
    (hoc : outputE.bind (fun x => x.content) = some (.arr none)) :
    processEvents
        (pre ++ ⟨.toolEnd outputE, some r, enm, emeta⟩ :: post)
        md st gen ctr =
      ((processEvents pre md st gen ctr).fst ++
        (handleLangGraphEvent ⟨.toolEnd outputE, some r, enm, emeta⟩ md
          (processEvents pre md st gen ctr).snd.fst gen
          (processEvents pre md st gen ctr).snd.snd).fst ++
        (processEvents post md
          (handleLangGraphEvent ⟨.toolEnd outputE, some r, enm, emeta⟩
            md (processEvents pre md st gen ctr).snd.fst gen
            (processEvents pre md st gen ctr).snd.snd).snd.fst gen
          (handleLangGraphEvent ⟨.toolEnd outputE, some r, enm, emeta⟩
            md (processEvents pre md st gen ctr).snd.fst gen
            (processEvents pre md st gen ctr).snd.snd).snd.snd).fst,
        (processEvents post md
          (handleLangGraphEvent ⟨.toolEnd outputE, some r, enm, emeta⟩
            md (processEvents pre md st gen ctr).snd.fst gen
            (processEvents pre md st gen ctr).snd.snd).snd.fst gen
          (handleLangGraphEvent ⟨.toolEnd outputE, some r, enm, emeta⟩
            md (processEvents pre md st gen ctr).snd.fst gen
            (processEvents pre md st gen ctr).snd.snd).snd.snd).snd) ∧
      ((handleLangGraphEvent ⟨.toolEnd outputE, some r, enm, emeta⟩ md
        (processEvents pre md st gen ctr).snd.fst gen
        (processEvents pre md st gen ctr).snd.snd).fst.filter
          isRunError).length = 1 ∧
      ∃ aid, (handleLangGraphEvent
          ⟨.toolEnd outputE, some r, enm, emeta⟩ md
          (processEvents pre md st gen ctr).snd.fst gen
          (processEvents pre md st gen ctr).snd.snd).fst =
        [.actionExecutionEnd aid,
          .runError (convertServiceAdapterErrorMessage
            "Converting circular structure to JSON")
            "LANGGRAPH_EVENT_ERROR"] := by
  have hbad : (handleLangGraphEvent
      ⟨.toolEnd outputE, some r, enm, emeta⟩ md
      (processEvents pre md st gen ctr).snd.fst gen
      (processEvents pre md st gen ctr).snd.snd).fst =
      [.actionExecutionEnd
          (resolveActionId
            (backfillRunId ⟨.toolEnd outputE, some r, enm, emeta⟩
              (processEvents pre md st gen ctr).snd.fst) r).fst,
        .runError (convertServiceAdapterErrorMessage
          "Converting circular structure to JSON")
          "LANGGRAPH_EVENT_ERROR"] := by
    rw [handleLangGraphEvent_out, dispatchEvent_toolEnd,
      handleToolEnd_throw ⟨.toolEnd outputE, some r, enm, emeta⟩
        outputE md _ gen _ r hE rfl hrne hoc]
    rfl
  refine ⟨?_, ?_, ⟨_, hbad⟩⟩
  · rw [processEvents_append]
    simp only [processEvents]
    simp [List.append_assoc]
  · rw [hbad]
    rfl

/-- C4 witness: an unserializable tool end between two healthy chunks
yields exactly one RunError while both chunks still emit, in order. -/
theorem C4_error_containment_witness :
    getShouldEmitToolCallsFromMetadata none none = true ∧
      ("r1" : String) ≠ "" ∧
      ((some ⟨some (.arr none)⟩ : Option ToolMsg).bind
        (fun x => x.content) = some (.arr none)) ∧
      (processEvents
          ([⟨.chatModelStream (some ⟨some "m1", some (.str "Hel"),
            none⟩), none, none, none⟩] ++
            ⟨.toolEnd (some ⟨some (.arr none)⟩), some "r1", none,
              none⟩ ::
            [⟨.chatModelStream (some ⟨some "m1", some (.str "lo"),
              none⟩), none, none, none⟩])
          none ⟨"run", none, none, [], []⟩ genU 0 =
        ((processEvents [⟨.chatModelStream (some ⟨some "m1",
            some (.str "Hel"), none⟩), none, none, none⟩] none
            ⟨"run", none, none, [], []⟩ genU 0).fst ++
          (handleLangGraphEvent ⟨.toolEnd (some ⟨some (.arr none)⟩),
            some "r1", none, none⟩ none
            (processEvents [⟨.chatModelStream (some ⟨some "m1",
              some (.str "Hel"), none⟩), none, none, none⟩] none
              ⟨"run", none, none, [], []⟩ genU 0).snd.fst genU
            (processEvents [⟨.chatModelStream (some ⟨some "m1",
              some (.str "Hel"), none⟩), none, none, none⟩] none
              ⟨"run", none, none, [], []⟩ genU 0).snd.snd).fst ++
          (processEvents [⟨.chatModelStream (some ⟨some "m1",
            some (.str "lo"), none⟩), none, none, none⟩] none
            (handleLangGraphEvent ⟨.toolEnd (some ⟨some (.arr none)⟩),
              some "r1", none, none⟩ none
              (processEvents [⟨.chatModelStream (some ⟨some "m1",
                some (.str "Hel"), none⟩), none, none, none⟩] none
                ⟨"run", none, none, [], []⟩ genU 0).snd.fst genU
              (processEvents [⟨.chatModelStream (some ⟨some "m1",
                some (.str "Hel"), none⟩), none, none, none⟩] none
                ⟨"run", none, none, [], []⟩ genU 0).snd.snd).snd.fst
            genU
            (handleLangGraphEvent ⟨.toolEnd (some ⟨some (.arr none)⟩),
              some "r1", none, none⟩ none
              (processEvents [⟨.chatModelStream (some ⟨some "m1",
                some (.str "Hel"), none⟩), none, none, none⟩] none
                ⟨"run", none, none, [], []⟩ genU 0).snd.fst genU
              (processEvents [⟨.chatModelStream (some ⟨some "m1",
                some (.str "Hel"), none⟩), none, none, none⟩] none
                ⟨"run", none, none, [], []⟩ genU 0).snd.snd).snd.snd).fst,
          (processEvents [⟨.chatModelStream (some ⟨some "m1",
            some (.str "lo"), none⟩), none, none, none⟩] none
            (handleLangGraphEvent ⟨.toolEnd (some ⟨some (.arr none)⟩),
              some "r1", none, none⟩ none
              (processEvents [⟨.chatModelStream (some ⟨some "m1",
                some (.str "Hel"), none⟩), none, none, none⟩] none
                ⟨"run", none, none, [], []⟩ genU 0).snd.fst genU
              (processEvents [⟨.chatModelStream (some ⟨some "m1",
                some (.str "Hel"), none⟩), none, none, none⟩] none
                ⟨"run", none, none, [], []⟩ genU 0).snd.snd).snd.fst
            genU
            (handleLangGraphEvent ⟨.toolEnd (some ⟨some (.arr none)⟩),
              some "r1", none, none⟩ none
              (processEvents [⟨.chatModelStream (some ⟨some "m1",
                some (.str "Hel"), none⟩), none, none, none⟩] none
                ⟨"run", none, none, [], []⟩ genU 0).snd.fst genU
              (processEvents [⟨.chatModelStream (some ⟨some "m1",
                some (.str "Hel"), none⟩), none, none, none⟩] none
                ⟨"run", none, none, [], []⟩ genU 0).snd.snd).snd.snd).snd) ∧
        ((handleLangGraphEvent ⟨.toolEnd (some ⟨some (.arr none)⟩),
          some "r1", none, none⟩ none
          (processEvents [⟨.chatModelStream (some ⟨some "m1",
            some (.str "Hel"), none⟩), none, none, none⟩] none
            ⟨"run", none, none, [], []⟩ genU 0).snd.fst genU
          (processEvents [⟨.chatModelStream (some ⟨some "m1",
            some (.str "Hel"), none⟩), none, none, none⟩] none
            ⟨"run", none, none, [], []⟩ genU 0).snd.snd).fst.filter
              isRunError).length = 1 ∧
        ∃ aid, (handleLangGraphEvent
            ⟨.toolEnd (some ⟨some (.arr none)⟩), some "r1", none, none⟩
            none
            (processEvents [⟨.chatModelStream (some ⟨some "m1",
              some (.str "Hel"), none⟩), none, none, none⟩] none
              ⟨"run", none, none, [], []⟩ genU 0).snd.fst genU
            (processEvents [⟨.chatModelStream (some ⟨some "m1",
              some (.str "Hel"), none⟩), none, none, none⟩] none
              ⟨"run", none, none, [], []⟩ genU 0).snd.snd).fst =
          [.actionExecutionEnd aid,
            .runError (convertServiceAdapterErrorMessage
              "Converting circular structure to JSON")
              "LANGGRAPH_EVENT_ERROR"]) :=
  ⟨by decide, by decide, rfl,
    C4_error_containment
      [⟨.chatModelStream (some ⟨some "m1", some (.str "Hel"), none⟩),
        none, none, none⟩]
      [⟨.chatModelStream (some ⟨some "m1", some (.str "lo"), none⟩),
        none, none, none⟩]
      (some ⟨some (.arr none)⟩) none none none
      ⟨"run", none, none, [], []⟩ genU 0 "r1" (by decide) (by decide)
      rfl⟩

end LGSA
